import Mathlib

/-! # ScanBell call signaling: owner (Dashboard) and visitor (VisitorCallPage)

A shallow embedding of the call-signaling code of `src/App.js`.

Conventions of the embedding.

* React state is a record; a function created during a render reads the
  values of that render (its *captured* values), while `setX(...)` writes the
  live record.  `useRef` cells and plain `let`/`const` locals of a closure are
  read and written live.
* Every `await` and every promise continuation is run to completion before
  the next envelope is handled (one handler at a time, envelopes in polled
  order); an updater passed to `setX` runs once, when it is passed.
* The result of each call to the browser or the relay is given by an
  `Outcomes` record supplied with the envelope being handled.
* Calls that matter to the protocol are appended to a log of `Effect`s.
  Toasts and console output are not modelled.
-/

namespace ScanBell

/-- An ICE candidate object as carried in `payload.candidate` (an object, hence truthy). -/
structure IceCandidate where
  candidate : String
  sdpMLineIndex : Nat
deriving DecidableEq, Repr

/-- A session description object as carried in `payload.sdp`. -/
structure SessionDescription where
  type : String
  sdp : String
deriving DecidableEq, Repr

/-- The `payload` object of a signaling message; an absent field is `none`.  No envelope built
in `App.js` sets `duration_seconds`. -/
structure Payload where
  visitor_name : Option String := none
  call_id : Option String := none
  sdp : Option SessionDescription := none
  candidate : Option IceCandidate := none
  duration_seconds : Option Int := none
deriving DecidableEq, Repr

/-- A signaling message as posted to `/signaling/send` and returned by `/signaling/poll`. -/
structure Envelope where
  room_id : String
  sender_type : String
  message_type : String
  payload : Payload
deriving DecidableEq, Repr

/-- Calls made to the browser and to the relay, in the order they are made. -/
inductive Effect where
  | getUserMedia (stream : Nat)
  | newPeerConnection (pc : Nat)
  | send (e : Envelope)
  | endCallRequest (call_id : String) (duration_seconds : Int)
  | setRemoteDescription (pc : Nat) (sdp : Option SessionDescription)
  | addIceCandidate (pc : Nat) (c : IceCandidate)
  | stopTracks (stream : Nat)
  | close (pc : Nat)
deriving DecidableEq, Repr

/-- Results of the asynchronous calls made while one envelope (or one user action) is handled:
`true` when the promise resolves, `false` when it rejects. -/
structure Outcomes where
  getUserMedia : Bool := true
  newPeerConnection : Bool := true
  createOffer : Bool := true
  createAnswer : Bool := true
  setLocalDescription : Bool := true
  setRemoteDescription : Bool := true
  addIceCandidate : Bool := true
  send : Bool := true
  message_id : Option String := none
  forbidden : Bool := false
  endCallRequest : Bool := true
deriving DecidableEq, Repr

/-- Every call succeeds. -/
def Outcomes.success : Outcomes := {}

/-- The candidates passed to `addIceCandidate`, in call order. -/
def forwarded (log : List Effect) : List IceCandidate :=
  log.filterMap fun e =>
    match e with
    | Effect.addIceCandidate _ c => some c
    | _ => none

/-- The candidates carried by the `ice-candidate` messages of a sequence, in arrival order. -/
def candidatesOf (msgs : List Envelope) : List IceCandidate :=
  msgs.filterMap fun m => if m.message_type = "ice-candidate" then m.payload.candidate else none

/-- JavaScript truthiness of an optional string (`null`, `undefined` and `""` are falsy). -/
def truthyString (s : Option String) : Bool :=
  match s with
  | some v => v != ""
  | none => false

/-! ## Owner: `Dashboard` -/

/-- The object stored by `setIncomingCall`. -/
structure IncomingCall where
  visitorName : String
  callId : Option String
  roomId : String
deriving DecidableEq, Repr

/-- State of the `Dashboard` component: its `useState` cells, the `offerPollingRef` cell,
the intervals currently running, the next fresh handle and the effect log. -/
structure Dashboard where
  user : Option String
  incomingCall : Option IncomingCall
  isInCall : Bool
  localStream : Option Nat
  remoteStream : Option Nat
  peerConnection : Option Nat
  offerPollingRef : Option Nat
  intervals : List Nat
  nextId : Nat
  log : List Effect
deriving DecidableEq, Repr

namespace Dashboard

/-- The body of the `for` loop of `pollForCalls` (App.js 233-242) for one message;
`incomingCall` is the value captured by the effect that created the interval. -/
def pollForCallsStep (incomingCall : Option IncomingCall) (w : Dashboard) (msg : Envelope) :
    Dashboard :=
  if msg.message_type = "ring" ∧ incomingCall = none then
    let call : IncomingCall :=
      { visitorName :=
          if truthyString msg.payload.visitor_name then msg.payload.visitor_name.getD ""
          else "Unknown Visitor"
        callId := msg.payload.call_id
        roomId := msg.room_id }
    { w with incomingCall := some call }
  else w

/-- One run of `pollForCalls` over a polled batch (App.js 231-242). -/
def pollForCalls (incomingCall : Option IncomingCall) (w : Dashboard) (messages : List Envelope) :
    Dashboard :=
  messages.foldl (pollForCallsStep incomingCall) w

/-- The guard of the polling effect (App.js 223): the interval exists only when it passes. -/
def pollsForCalls (w : Dashboard) : Bool :=
  w.user.isSome && !w.isInCall

/-- One tick of the incoming-call interval after the component has re-rendered: the effect
depends on `incomingCall`, so the closure that runs holds the current value. -/
def pollTick (w : Dashboard) (messages : List Envelope) : Dashboard :=
  if pollsForCalls w then pollForCalls w.incomingCall w messages else w

/-- The locals of one `acceptCall` invocation that its interval callback keeps using:
the captured `incomingCall`, `localStream` and `peerConnection` of the render, the
connection `pc`, and the mutable `iceCandidateQueue` and `remoteDescriptionSet`. -/
structure Negotiation where
  incomingCall : IncomingCall
  localStream : Option Nat
  peerConnection : Option Nat
  pc : Nat
  iceCandidateQueue : List IceCandidate
  remoteDescriptionSet : Bool
deriving DecidableEq, Repr

/-- `clearInterval(offerPollingRef.current); offerPollingRef.current = null` under the test
`if (offerPollingRef.current)`. -/
def clearOfferPolling (w : Dashboard) : Dashboard :=
  match w.offerPollingRef with
  | some i => { w with intervals := w.intervals.filter (fun j => j != i), offerPollingRef := none }
  | none => w

/-- The test `if (localStream)` of `endCall` with its body (App.js 475-478). -/
def stopLocalStream (localStream : Option Nat) (w : Dashboard) : Dashboard :=
  match localStream with
  | some s => { w with log := w.log ++ [Effect.stopTracks s], localStream := none }
  | none => w

/-- The test `if (peerConnection)` of `endCall` with its body (App.js 479-482). -/
def closePeerConnection (peerConnection : Option Nat) (w : Dashboard) : Dashboard :=
  match peerConnection with
  | some p => { w with log := w.log ++ [Effect.close p], peerConnection := none }
  | none => w

/-- `endCall` (App.js 474-491); `localStream` and `peerConnection` are the values of the
render in which this `endCall` was created. -/
def endCall (localStream peerConnection : Option Nat) (w : Dashboard) : Dashboard :=
  let w3 := clearOfferPolling (closePeerConnection peerConnection (stopLocalStream localStream w))
  { w3 with remoteStream := none, isInCall := false, incomingCall := none }

/-- The `while` loop that empties the queue (App.js 408-415): each candidate is shifted off the
front and passed to `addIceCandidate`; a rejection is caught. -/
def drainQueue (pc : Nat) : List IceCandidate → List Effect → List Effect
  | [], log => log
  | c :: rest, log => drainQueue pc rest (log ++ [Effect.addIceCandidate pc c])

/-- Result of handling one envelope: the closure locals, the component state, and whether an
exception escaped (which ends the handling of the current batch). -/
structure Handled where
  closure : Negotiation
  page : Dashboard
  threw : Bool
deriving DecidableEq, Repr

/-- The `answer` envelope posted at App.js 400-405. -/
def answerEnvelope (n : Negotiation) : Envelope :=
  { room_id := n.incomingCall.roomId
    sender_type := "owner"
    message_type := "answer"
    payload := { sdp := some { type := "answer", sdp := "" }, call_id := n.incomingCall.callId } }

/-- The `offer` branch of the interval callback (App.js 393-415). -/
def handleOffer (o : Outcomes) (n : Negotiation) (w : Dashboard) (msg : Envelope) : Handled :=
  let w1 := { w with log := w.log ++ [Effect.setRemoteDescription n.pc msg.payload.sdp] }
  if !o.setRemoteDescription then { closure := n, page := w1, threw := true }
  else
    let n1 := { n with remoteDescriptionSet := true }
    if !o.createAnswer then { closure := n1, page := w1, threw := true }
    else if !o.setLocalDescription then { closure := n1, page := w1, threw := true }
    else
      let w2 := { w1 with log := w1.log ++ [Effect.send (answerEnvelope n)] }
      if !o.send then { closure := n1, page := w2, threw := true }
      else
        { closure := { n1 with iceCandidateQueue := [] }
          page := { w2 with log := drainQueue n.pc n1.iceCandidateQueue w2.log }
          threw := false }

/-- The `ice-candidate` branch of the interval callback (App.js 417-426). -/
def handleCandidate (n : Negotiation) (w : Dashboard) (c : IceCandidate) : Handled :=
  if n.remoteDescriptionSet then
    { closure := n, page := { w with log := w.log ++ [Effect.addIceCandidate n.pc c] },
      threw := false }
  else
    { closure := { n with iceCandidateQueue := n.iceCandidateQueue ++ [c] }, page := w,
      threw := false }

/-- The `end` branch of the interval callback (App.js 428-432). -/
def handleEnd (n : Negotiation) (w : Dashboard) : Handled :=
  { closure := n, page := clearOfferPolling (endCall n.localStream n.peerConnection w),
    threw := false }

/-- The body of the `for` loop of the interval started by `acceptCall` (App.js 392-434). -/
def handleMessage (o : Outcomes) (n : Negotiation) (w : Dashboard) (msg : Envelope) : Handled :=
  if msg.message_type = "offer" then handleOffer o n w msg
  else if msg.message_type = "ice-candidate" ∧ msg.payload.candidate.isSome then
    match msg.payload.candidate with
    | some c => handleCandidate n w c
    | none => { closure := n, page := w, threw := false }
  else if msg.message_type = "end" then handleEnd n w
  else { closure := n, page := w, threw := false }

/-- One tick of the interval started by `acceptCall`: the polled messages are handled in order;
an exception that escapes the callback abandons the rest of the batch. -/
def handleBatch (n : Negotiation) (w : Dashboard) : List (Envelope × Outcomes) → Handled
  | [] => { closure := n, page := w, threw := false }
  | (msg, o) :: rest =>
    let r := handleMessage o n w msg
    if r.threw then r else handleBatch r.closure r.page rest

/-- Successive ticks of the interval: each batch starts from the locals and state left by the
previous one, whether or not that one ended with an exception. -/
def handleBatches (n : Negotiation) (w : Dashboard) : List (List (Envelope × Outcomes)) → Handled
  | [] => { closure := n, page := w, threw := false }
  | batch :: rest =>
    let r := handleBatch n w batch
    handleBatches r.closure r.page rest

/-- The `accept` envelope posted at App.js 378-383. -/
def acceptEnvelope (ic : IncomingCall) : Envelope :=
  { room_id := ic.roomId
    sender_type := "owner"
    message_type := "accept"
    payload := { call_id := ic.callId } }

/-- `acceptCall` (App.js 336-452) up to the start of the interval.  Returns the new component
state and, when the interval was started, the locals its callback works on. -/
def acceptCall (o : Outcomes) (w : Dashboard) : Dashboard × Option Negotiation :=
  match w.incomingCall with
  | none => (w, none)
  | some ic =>
    if !o.getUserMedia then
      ({ w with isInCall := false, incomingCall := none }, none)
    else
      let stream := w.nextId
      let w1 := { w with log := w.log ++ [Effect.getUserMedia stream], nextId := w.nextId + 1,
                         localStream := some stream }
      if !o.newPeerConnection then
        ({ w1 with isInCall := false, incomingCall := none }, none)
      else
        let pc := w1.nextId
        let w2 := { w1 with log := w1.log ++ [Effect.newPeerConnection pc],
                            nextId := w1.nextId + 1, peerConnection := some pc, isInCall := true }
        let w3 := { w2 with log := w2.log ++ [Effect.send (acceptEnvelope ic)] }
        if !o.send then
          ({ w3 with isInCall := false, incomingCall := none }, none)
        else
          let i := w3.nextId
          ({ w3 with nextId := w3.nextId + 1, offerPollingRef := some i,
                     intervals := i :: w3.intervals, incomingCall := none },
           some { incomingCall := ic, localStream := w.localStream,
                  peerConnection := w.peerConnection, pc := pc,
                  iceCandidateQueue := [], remoteDescriptionSet := false })

/-- The `reject` envelope posted by `rejectCall` (App.js 459-464). -/
def rejectEnvelope (ic : IncomingCall) : Envelope :=
  { room_id := ic.roomId
    sender_type := "owner"
    message_type := "reject"
    payload := { call_id := ic.callId } }

/-- `rejectCall` (App.js 455-471); a failed post is caught. -/
def rejectCall (w : Dashboard) : Dashboard :=
  match w.incomingCall with
  | none => w
  | some ic => { w with log := w.log ++ [Effect.send (rejectEnvelope ic)], incomingCall := none }

/-- The `ice-candidate` envelope posted at App.js 362-367. -/
def candidateEnvelope (n : Negotiation) (c : IceCandidate) : Envelope :=
  { room_id := n.incomingCall.roomId
    sender_type := "owner"
    message_type := "ice-candidate"
    payload := { candidate := some c, call_id := n.incomingCall.callId } }

/-- The handler `pc.onicecandidate` installed by `acceptCall` (App.js 359-372). -/
def onIceCandidate (n : Negotiation) (candidate : Option IceCandidate) (w : Dashboard) :
    Dashboard :=
  match candidate with
  | some c => { w with log := w.log ++ [Effect.send (candidateEnvelope n c)] }
  | none => w

end Dashboard

/-! ## Visitor: `VisitorCallPage` -/

/-- State of the `VisitorCallPage` component: the route parameter `userId`, its `useState`
cells, the `pollingIntervalRef` cell, and the environment: running intervals, closed
connections, the clock (`Date.now()`), the next fresh handle and the effect log. -/
structure VisitorCallPage where
  userId : String
  error : Option String
  callState : String
  visitorName : String
  localStream : Option Nat
  remoteStream : Option Nat
  peerConnection : Option Nat
  callId : Option String
  callStartTime : Option Nat
  iceCandidateQueue : List IceCandidate
  remoteDescSet : Bool
  pollingIntervalRef : Option Nat
  intervals : List Nat
  closed : List Nat
  now : Nat
  nextId : Nat
  log : List Effect
deriving DecidableEq, Repr

namespace VisitorCallPage

/-- The state values of one render that the functions created in it read. -/
structure Render where
  callState : String
  remoteDescSet : Bool
  callId : Option String
  callStartTime : Option Nat
  localStream : Option Nat
  peerConnection : Option Nat
deriving DecidableEq, Repr

/-- The values a function created in the current render captures. -/
def render (w : VisitorCallPage) : Render :=
  { callState := w.callState
    remoteDescSet := w.remoteDescSet
    callId := w.callId
    callStartTime := w.callStartTime
    localStream := w.localStream
    peerConnection := w.peerConnection }

/-- The locals of one `ringDoorbell` invocation that its interval and timeout callbacks use:
the captured render, the interval it started and the mutable `callAccepted`. -/
structure Ringing where
  render : Render
  interval : Nat
  callAccepted : Bool
deriving DecidableEq, Repr

/-- Code points removed by `String.prototype.trim` (WhiteSpace and LineTerminator). -/
def isTrimmed (c : Char) : Bool :=
  c.toNat ∈ [0x09, 0x0A, 0x0B, 0x0C, 0x0D, 0x20, 0xA0, 0x1680, 0x2028, 0x2029, 0x202F, 0x205F,
    0x3000, 0xFEFF] || (0x2000 ≤ c.toNat && c.toNat ≤ 0x200A)

/-- The test `!visitorName.trim()` (App.js 998): nothing is left after trimming. -/
def trimIsEmpty (name : String) : Bool :=
  name.toList.all isTrimmed

/-- The `ring` envelope posted at App.js 1005-1010. -/
def ringEnvelope (w : VisitorCallPage) : Envelope :=
  { room_id := w.userId
    sender_type := "visitor"
    message_type := "ring"
    payload := { visitor_name := some w.visitorName } }

/-- The `offer` envelope posted at App.js 1137-1142. -/
def offerEnvelope (w : VisitorCallPage) : Envelope :=
  { room_id := w.userId
    sender_type := "visitor"
    message_type := "offer"
    payload := { sdp := some { type := "offer", sdp := "" } } }

/-- The `end` envelope posted at App.js 1171-1176. -/
def endEnvelope (w : VisitorCallPage) (callId : Option String) : Envelope :=
  { room_id := w.userId
    sender_type := "visitor"
    message_type := "end"
    payload := { call_id := callId } }

/-- `clearInterval(pollingIntervalRef.current); pollingIntervalRef.current = null` under the
test `if (pollingIntervalRef.current)`. -/
def clearPolling (w : VisitorCallPage) : VisitorCallPage :=
  match w.pollingIntervalRef with
  | some i => { w with intervals := w.intervals.filter (fun j => j != i), pollingIntervalRef := none }
  | none => w

/-- `startCall` (App.js 1103-1159). -/
def startCall (o : Outcomes) (w : VisitorCallPage) : VisitorCallPage :=
  if !o.getUserMedia then { w with callState := "ended" }
  else
    let stream := w.nextId
    let w1 := { w with log := w.log ++ [Effect.getUserMedia stream], nextId := w.nextId + 1,
                       localStream := some stream, callStartTime := some w.now }
    if !o.newPeerConnection then { w1 with callState := "ended" }
    else
      let pc := w1.nextId
      let w2 := { w1 with log := w1.log ++ [Effect.newPeerConnection pc],
                          nextId := w1.nextId + 1 }
      if !o.createOffer then { w2 with callState := "ended" }
      else if !o.setLocalDescription then { w2 with callState := "ended" }
      else
        let w3 := { w2 with log := w2.log ++ [Effect.send (offerEnvelope w)] }
        if !o.send then { w3 with callState := "ended" }
        else { w3 with peerConnection := some pc, callState := "connected" }

/-- The duration computed at App.js 1162: `callStartTime` is tested for truthiness
(`null` and `0` are falsy), the quotient is rounded down. -/
def duration (callStartTime : Option Nat) (now : Nat) : Int :=
  match callStartTime with
  | some t => if t = 0 then 0 else ((now : Int) - (t : Int)) / 1000
  | none => 0

/-- The test `if (callId)` of `endCall` with its body (App.js 1164-1180): the end-call request,
then the `end` envelope; a rejection of either is caught. -/
def notifyEnd (o : Outcomes) (r : Render) (w : VisitorCallPage) : VisitorCallPage :=
  match r.callId with
  | some id =>
    if id = "" then w
    else
      let w0 := { w with log := w.log ++
        [Effect.endCallRequest id (duration r.callStartTime w.now)] }
      if o.endCallRequest then { w0 with log := w0.log ++ [Effect.send (endEnvelope w r.callId)] }
      else w0
  | none => w

/-- The test `if (localStream)` of `endCall` with its body (App.js 1182-1185). -/
def stopLocalStream (localStream : Option Nat) (w : VisitorCallPage) : VisitorCallPage :=
  match localStream with
  | some s => { w with log := w.log ++ [Effect.stopTracks s], localStream := none }
  | none => w

/-- The test `if (peerConnection)` of `endCall` with its body (App.js 1186-1189). -/
def closePeerConnection (peerConnection : Option Nat) (w : VisitorCallPage) : VisitorCallPage :=
  match peerConnection with
  | some p => { w with log := w.log ++ [Effect.close p], closed := p :: w.closed,
                       peerConnection := none }
  | none => w

/-- `endCall` (App.js 1161-1198); `r` holds the values of the render in which this `endCall`
was created. -/
def endCall (o : Outcomes) (r : Render) (w : VisitorCallPage) : VisitorCallPage :=
  let w4 := clearPolling
    (closePeerConnection r.peerConnection (stopLocalStream r.localStream (notifyEnd o r w)))
  { w4 with remoteStream := none, callState := "ended", iceCandidateQueue := [],
            remoteDescSet := false }

/-- The `forEach` over the queued candidates (App.js 1046-1049). -/
def forwardQueue (pc : Nat) (queue : List IceCandidate) : List Effect :=
  queue.map (Effect.addIceCandidate pc)

/-- The `accept` branch of the interval callback (App.js 1027-1029). -/
def handleAccept (o : Outcomes) (r : Ringing) (w : VisitorCallPage) (msg : Envelope) :
    Ringing × VisitorCallPage :=
  ({ r with callAccepted := true }, startCall o { w with callId := msg.payload.call_id })

/-- The `reject` branch of the interval callback (App.js 1032-1037). -/
def handleReject (r : Ringing) (w : VisitorCallPage) : Ringing × VisitorCallPage :=
  (r, { clearPolling w with callState := "rejected" })

/-- The `answer` branch of the interval callback (App.js 1039-1056). -/
def handleAnswer (o : Outcomes) (r : Ringing) (w : VisitorCallPage) (msg : Envelope) :
    Ringing × VisitorCallPage :=
  match w.peerConnection with
  | some pc =>
    if pc ∈ w.closed then (r, w)
    else
      let w1 := { w with log := w.log ++ [Effect.setRemoteDescription pc msg.payload.sdp] }
      if o.setRemoteDescription then
        (r, { w1 with remoteDescSet := true,
                      log := w1.log ++ forwardQueue pc w1.iceCandidateQueue,
                      iceCandidateQueue := [] })
      else (r, w1)
  | none => (r, w)

/-- The `ice-candidate` branch of the interval callback (App.js 1058-1069). -/
def handleCandidate (r : Ringing) (w : VisitorCallPage) (c : IceCandidate) :
    Ringing × VisitorCallPage :=
  if r.render.remoteDescSet then
    match w.peerConnection with
    | some pc =>
      if pc ∈ w.closed then (r, w)
      else (r, { w with log := w.log ++ [Effect.addIceCandidate pc c] })
    | none => (r, w)
  else (r, { w with iceCandidateQueue := w.iceCandidateQueue ++ [c] })

/-- The `end` branch of the interval callback (App.js 1071-1075). -/
def handleEnd (o : Outcomes) (r : Ringing) (w : VisitorCallPage) : Ringing × VisitorCallPage :=
  (r, endCall o r.render (clearPolling w))

/-- The body of the `for` loop of the interval started by `ringDoorbell` (App.js 1025-1077). -/
def handleMessage (o : Outcomes) (r : Ringing) (w : VisitorCallPage) (msg : Envelope) :
    Ringing × VisitorCallPage :=
  if msg.message_type = "accept" ∧ r.callAccepted = false then handleAccept o r w msg
  else if msg.message_type = "reject" then handleReject r w
  else if msg.message_type = "answer" then handleAnswer o r w msg
  else if msg.message_type = "ice-candidate" ∧ msg.payload.candidate.isSome then
    match msg.payload.candidate with
    | some c => handleCandidate r w c
    | none => (r, w)
  else if msg.message_type = "end" then handleEnd o r w
  else (r, w)

/-- One tick of the interval started by `ringDoorbell`: the polled messages in order. -/
def handleBatch (r : Ringing) (w : VisitorCallPage) :
    List (Envelope × Outcomes) → Ringing × VisitorCallPage
  | [] => (r, w)
  | (msg, o) :: rest =>
    let s := handleMessage o r w msg
    handleBatch s.1 s.2 rest

/-- Successive ticks of the interval started by `ringDoorbell`. -/
def handleBatches (r : Ringing) (w : VisitorCallPage) :
    List (List (Envelope × Outcomes)) → Ringing × VisitorCallPage
  | [] => (r, w)
  | batch :: rest =>
    let s := handleBatch r w batch
    handleBatches s.1 s.2 rest

/-- `ringDoorbell` (App.js 997-1101) up to the start of the interval and of the timer.
Returns the new state and, when the ring was sent, the locals of this invocation. -/
def ringDoorbell (o : Outcomes) (w : VisitorCallPage) : VisitorCallPage × Option Ringing :=
  if trimIsEmpty w.visitorName then (w, none)
  else
    let w1 := { w with log := w.log ++ [Effect.send (ringEnvelope w)] }
    if !o.send then
      if o.forbidden then
        ({ w1 with error := some "You have been blocked from this doorbell." }, none)
      else (w1, none)
    else
      let i := w1.nextId
      ({ w1 with callId := o.message_id, callState := "ringing", nextId := w1.nextId + 1,
                 pollingIntervalRef := some i, intervals := i :: w1.intervals },
       some { render := w.render, interval := i, callAccepted := false })

/-- The callback of the 60-second timer (App.js 1084-1093); the `callState` it tests is the
one of the render in which `ringDoorbell` was created. -/
def responseTimeout (r : Ringing) (w : VisitorCallPage) : VisitorCallPage :=
  if r.render.callState = "ringing" then { clearPolling w with callState := "ended" }
  else w

/-- The "Ring Doorbell" button (App.js 1274-1293): rendered only on the idle page without
error, it runs the `ringDoorbell` of the current render. -/
def clickRing (o : Outcomes) (w : VisitorCallPage) : VisitorCallPage × Option Ringing :=
  if w.error = none ∧ w.callState = "idle" then ringDoorbell o w else (w, none)

/-- The "Cancel" button of the ringing page (App.js 1302-1304). -/
def clickCancel (w : VisitorCallPage) : VisitorCallPage :=
  if w.error = none ∧ w.callState = "ringing" then { w with callState := "idle" } else w

/-- The "Try Again" button of the rejected page (App.js 1311). -/
def clickTryAgain (w : VisitorCallPage) : VisitorCallPage :=
  if w.error = none ∧ w.callState = "rejected" then { w with callState := "idle" } else w

/-- The "Ring Again" button of the ended page (App.js 1318). -/
def clickRingAgain (w : VisitorCallPage) : VisitorCallPage :=
  if w.error = none ∧ w.callState = "ended" then { w with callState := "idle" } else w

/-- The "End Call" button of the connected page (App.js 1258): the `endCall` of the
current render. -/
def clickEndCall (o : Outcomes) (w : VisitorCallPage) : VisitorCallPage :=
  if w.error = none ∧ w.callState = "connected" then endCall o w.render w else w

/-- The handler `pc.ontrack` installed by `startCall` (App.js 1115-1117). -/
def onTrack (stream : Nat) (w : VisitorCallPage) : VisitorCallPage :=
  { w with remoteStream := some stream }

/-- The `ice-candidate` envelope posted at App.js 1122-1127. -/
def candidateEnvelope (w : VisitorCallPage) (c : IceCandidate) : Envelope :=
  { room_id := w.userId
    sender_type := "visitor"
    message_type := "ice-candidate"
    payload := { candidate := some c } }

/-- The handler `pc.onicecandidate` installed by `startCall` (App.js 1119-1132). -/
def onIceCandidate (candidate : Option IceCandidate) (w : VisitorCallPage) : VisitorCallPage :=
  match candidate with
  | some c => { w with log := w.log ++ [Effect.send (candidateEnvelope w c)] }
  | none => w

/-- The page as first rendered for doorbell `userId` once its info is loaded: the initial
values of the `useState` and `useRef` cells (App.js 962-975). -/
def initial (userId : String) : VisitorCallPage :=
  { userId := userId, error := none, callState := "idle", visitorName := "",
    localStream := none, remoteStream := none, peerConnection := none, callId := none,
    callStartTime := none, iceCandidateQueue := [], remoteDescSet := false,
    pollingIntervalRef := none, intervals := [], closed := [], now := 0, nextId := 0, log := [] }

/-- The input box: `setVisitorName(e.target.value)` (App.js 1281). -/
def typeName (name : String) (w : VisitorCallPage) : VisitorCallPage :=
  { w with visitorName := name }

end VisitorCallPage

/-- The dashboard as first rendered for a logged-in user (App.js 186-197). -/
def Dashboard.initial (user : String) : Dashboard :=
  { user := some user, incomingCall := none, isInCall := false, localStream := none,
    remoteStream := none, peerConnection := none, offerPollingRef := none, intervals := [],
    nextId := 0, log := [] }

/-! ## Runs and example inputs -/

/-- A polled batch in which every call made while an envelope is handled succeeds. -/
def allSucceed (msgs : List Envelope) : List (Envelope × Outcomes) :=
  msgs.map fun m => (m, Outcomes.success)

/-- Whether a sequence of envelopes contains an `offer`. -/
def hasOffer (msgs : List Envelope) : Bool :=
  msgs.any fun m => decide (m.message_type = "offer")

/-- An `ice-candidate` envelope from the visitor carrying candidate `c`. -/
def visitorCandidate (room : String) (c : IceCandidate) : Envelope :=
  { room_id := room, sender_type := "visitor", message_type := "ice-candidate",
    payload := { candidate := some c } }

/-- An `offer` envelope from the visitor, as `startCall` posts it. -/
def visitorOffer (room : String) : Envelope :=
  { room_id := room, sender_type := "visitor", message_type := "offer",
    payload := { sdp := some { type := "offer", sdp := "" } } }

/-- The calls of a log that acquire local media or create a connection. -/
def acquired (log : List Effect) : List Effect :=
  log.filter fun e =>
    match e with
    | Effect.getUserMedia _ => true
    | Effect.newPeerConnection _ => true
    | _ => false

/-- The part of the visitor state that tells whether an attempt is still ringing and what it
has acquired. -/
def VisitorCallPage.attemptView (w : VisitorCallPage) :
    String × Option Nat × List Nat × List Effect × Option Nat × Option Nat :=
  (w.callState, w.pollingIntervalRef, w.intervals, acquired w.log, w.localStream,
    w.peerConnection)

namespace Examples

def c1 : IceCandidate := { candidate := "candidate:1 1 udp 2122260223 192.0.2.1 54400 typ host",
                           sdpMLineIndex := 0 }

def c2 : IceCandidate := { candidate := "candidate:2 1 udp 1686052607 198.51.100.7 61000 typ srflx",
                           sdpMLineIndex := 0 }

def c3 : IceCandidate := { candidate := "candidate:3 1 udp 41885439 203.0.113.9 3478 typ relay",
                           sdpMLineIndex := 1 }

/-- The call tracked after Alex rang doorbell `owner-1`. -/
def alex : IncomingCall := { visitorName := "Alex", callId := some "call-1", roomId := "owner-1" }

/-- A dashboard showing the incoming call of `alex`. -/
def incoming : Dashboard := { Dashboard.initial "owner-1" with incomingCall := some alex }

/-- The dashboard after `acceptCall` succeeded on `incoming`. -/
def inCall : Dashboard :=
  { user := some "owner-1", incomingCall := none, isInCall := true, localStream := some 0,
    remoteStream := none, peerConnection := some 1, offerPollingRef := some 2, intervals := [2],
    nextId := 3,
    log := [Effect.getUserMedia 0, Effect.newPeerConnection 1,
            Effect.send (Dashboard.acceptEnvelope alex)] }

/-- The locals of that `acceptCall`. -/
def negotiation : Dashboard.Negotiation :=
  { incomingCall := alex, localStream := none, peerConnection := none, pc := 1,
    iceCandidateQueue := [], remoteDescriptionSet := false }

/-- The relay accepts a post and answers with message id `call-1`. -/
def relayAccepts : Outcomes := { message_id := some "call-1" }

/-- The visitor page of doorbell `owner-1` with the name "Alex" typed in. -/
def page : VisitorCallPage := VisitorCallPage.typeName "Alex" (VisitorCallPage.initial "owner-1")

/-- The page after "Ring Doorbell" was clicked on `page` and the relay accepted the ring. -/
def ringing : VisitorCallPage :=
  { page with callState := "ringing", callId := some "call-1", pollingIntervalRef := some 0,
              intervals := [0], nextId := 1,
              log := [Effect.send (VisitorCallPage.ringEnvelope page)] }

/-- The locals of that `ringDoorbell`: it was created in the render of `page`. -/
def ring : VisitorCallPage.Ringing :=
  { render := VisitorCallPage.render page, interval := 0, callAccepted := false }

/-- The envelopes the owner of `negotiation` sends. -/
def accept : Envelope := Dashboard.acceptEnvelope alex

def reject : Envelope := Dashboard.rejectEnvelope alex

def answer : Envelope := Dashboard.answerEnvelope negotiation

def candidate (c : IceCandidate) : Envelope := Dashboard.candidateEnvelope negotiation c

/-- The page while connection `2` is open and two candidates are queued. -/
def queued : VisitorCallPage :=
  { ringing with peerConnection := some 2, iceCandidateQueue := [c1, c2] }

end Examples

/-- A `ring` envelope as the relay delivers it to the owner. -/
def visitorRing (room name callId : String) : Envelope :=
  { room_id := room, sender_type := "visitor", message_type := "ring",
    payload := { visitor_name := some name, call_id := some callId } }

/-- The "End Call" button of the active-call overlay (App.js 582-613): rendered while
`isInCall`, it runs the `endCall` of the current render. -/
def Dashboard.clickEndCall (w : Dashboard) : Dashboard :=
  if w.isInCall then Dashboard.endCall w.localStream w.peerConnection w else w

/-- The envelopes posted to `/signaling/send`, in order. -/
def sent (log : List Effect) : List Envelope :=
  log.filterMap fun e =>
    match e with
    | Effect.send env => some env
    | _ => none

/-- The requests posted to `/signaling/end-call`: call id and duration, in order. -/
def persisted (log : List Effect) : List (String × Int) :=
  log.filterMap fun e =>
    match e with
    | Effect.endCallRequest id d => some (id, d)
    | _ => none

/-- The calls of a log that release a resource: `track.stop()` on the tracks of a stream and
`close()` on a connection. -/
def released (log : List Effect) : List Effect :=
  log.filter fun e =>
    match e with
    | Effect.stopTracks _ => true
    | Effect.close _ => true
    | _ => false

/-- Whether an `offer` envelope has been posted. -/
def offerPosted (log : List Effect) : Bool :=
  log.any fun e =>
    match e with
    | Effect.send env => decide (env.message_type = "offer")
    | _ => false

namespace VisitorCallPage

/-- What can happen on the visitor page: user actions, a tick of the interval started by the
`attempt`-th ring with the polled batch, the timer of that ring, events of the connection, and
the passing of time. -/
inductive Event where
  | typeName (name : String)
  | clickRing (o : Outcomes)
  | poll (attempt : Nat) (batch : List (Envelope × Outcomes))
  | timeout (attempt : Nat)
  | clickCancel
  | clickTryAgain
  | clickRingAgain
  | clickEndCall (o : Outcomes)
  | onTrack (stream : Nat)
  | onIceCandidate (candidate : Option IceCandidate)
  | clock (ms : Nat)
deriving DecidableEq, Repr

/-- The page together with the closures of the `ringDoorbell` invocations made so far. -/
structure Session where
  page : VisitorCallPage
  attempts : List Ringing
deriving DecidableEq, Repr

/-- One event.  An interval ticks only while it has not been cleared; the timer of a ring is
never cancelled by the code, so it may fire whatever the state. -/
def Session.step (s : Session) : Event → Session
  | Event.typeName name =>
    if s.page.error = none ∧ s.page.callState = "idle" then { s with page := typeName name s.page }
    else s
  | Event.clickRing o =>
    match clickRing o s.page with
    | (w, some r) => { page := w, attempts := s.attempts ++ [r] }
    | (w, none) => { s with page := w }
  | Event.poll k batch =>
    match s.attempts[k]? with
    | some r =>
      if r.interval ∈ s.page.intervals then
        { page := (handleBatch r s.page batch).2,
          attempts := s.attempts.set k (handleBatch r s.page batch).1 }
      else s
    | none => s
  | Event.timeout k =>
    match s.attempts[k]? with
    | some r => { s with page := responseTimeout r s.page }
    | none => s
  | Event.clickCancel => { s with page := clickCancel s.page }
  | Event.clickTryAgain => { s with page := clickTryAgain s.page }
  | Event.clickRingAgain => { s with page := clickRingAgain s.page }
  | Event.clickEndCall o => { s with page := clickEndCall o s.page }
  | Event.onTrack stream => { s with page := onTrack stream s.page }
  | Event.onIceCandidate c => { s with page := onIceCandidate c s.page }
  | Event.clock ms => { s with page := { s.page with now := s.page.now + ms } }

/-- A sequence of events, from the left. -/
def Session.run (s : Session) (events : List Event) : Session :=
  events.foldl Session.step s

/-- The page as first rendered, no ring made yet. -/
def Session.start (userId : String) : Session :=
  { page := initial userId, attempts := [] }

end VisitorCallPage

namespace Examples

/-- An `end` envelope for the call of `alex` as the relay delivers it. -/
def endOfCall (sender : String) : Envelope :=
  { room_id := "owner-1", sender_type := sender, message_type := "end",
    payload := { call_id := some "call-1" } }

/-- Alex opens the page on 2023-11-14, types a name, rings, and the owner's `accept` is
handled with every call succeeding. -/
def callEvents : List VisitorCallPage.Event :=
  [VisitorCallPage.Event.clock 1700000000000, VisitorCallPage.Event.typeName "Alex",
   VisitorCallPage.Event.clickRing relayAccepts,
   VisitorCallPage.Event.poll 0 (allSucceed [accept])]

/-- The session after `callEvents`. -/
def called : VisitorCallPage.Session :=
  VisitorCallPage.Session.run (VisitorCallPage.Session.start "owner-1") callEvents

/-- The page after `callEvents` and 65.5 more seconds. -/
def talking : VisitorCallPage :=
  { called.page with now := called.page.now + 65500 }

/-- Outcomes in which only the end-call request rejects. -/
def endCallRequestFails : Outcomes := { endCallRequest := false }

/-- Outcomes in which only `createOffer` rejects. -/
def createOfferFails : Outcomes := { createOffer := false }

/-- Outcomes in which only the post to the relay rejects. -/
def sendFails : Outcomes := { send := false }

end Examples

/-- The condition under which the visitor page may show the call as connected: `startCall` has
run to its end, so a local stream and a connection are held and an offer has been posted. -/
def VisitorCallPage.ConnectedAfterOffer (w : VisitorCallPage) : Prop :=
  w.callState = "connected" →
    w.localStream.isSome = true ∧ w.peerConnection.isSome = true ∧ offerPosted w.log = true

/-! ## Call history -/

/-- Decimal notation of a natural number, as `Number.prototype.toString` gives it for a
non-negative integer. -/
def decimal (n : Nat) : String :=
  if n = 0 then "0" else String.mk ((Nat.digits 10 n).reverse.map Nat.digitChar)

/-- `String.prototype.padStart` with a one-character filler. -/
def padStart (len : Nat) (c : Char) (s : String) : String :=
  String.mk (List.replicate (len - s.length) c) ++ s

/-- The text of the `history-duration` element of a call-history entry (App.js 839-843), `none`
when the element is not rendered; `d` is `call.duration_seconds`. -/
def historyDuration (d : Nat) : Option String :=
  if d > 0 then some ("Duration: " ++ decimal (d / 60) ++ ":" ++ padStart 2 '0' (decimal (d % 60)))
  else none

namespace Examples

/-- The relay accepts a post and answers with message id `call-2`. -/
def relayAcceptsAgain : Outcomes := { message_id := some "call-2" }

/-- Outcomes in which only `getUserMedia` rejects. -/
def mediaDenied : Outcomes := { getUserMedia := false }

/-- After `callEvents`: Alex talks for 65.5 seconds, presses "End Call", then "Ring Again" and
rings a second time. -/
def secondRingEvents : List VisitorCallPage.Event :=
  callEvents ++
    [VisitorCallPage.Event.clock 65500, VisitorCallPage.Event.clickEndCall Outcomes.success,
     VisitorCallPage.Event.clickRingAgain, VisitorCallPage.Event.clickRing relayAcceptsAgain]

/-- An `end` envelope for the second call, as the relay delivers it. -/
def endOfSecondCall : Envelope :=
  { room_id := "owner-1", sender_type := "owner", message_type := "end",
    payload := { call_id := some "call-2" } }

/-- Alex rings, the owner accepts, and `getUserMedia` rejects. -/
def failedStartEvents : List VisitorCallPage.Event :=
  [VisitorCallPage.Event.clock 1700000000000, VisitorCallPage.Event.typeName "Alex",
   VisitorCallPage.Event.clickRing relayAccepts,
   VisitorCallPage.Event.poll 0 [(accept, mediaDenied)]]

/-- Alex rings and presses "Cancel". -/
def cancelEvents : List VisitorCallPage.Event :=
  [VisitorCallPage.Event.clock 1700000000000, VisitorCallPage.Event.typeName "Alex",
   VisitorCallPage.Event.clickRing relayAccepts, VisitorCallPage.Event.clickCancel]

/-- An `ice-candidate` envelope whose payload has no candidate. -/
def emptyCandidate : Envelope :=
  { room_id := "owner-1", sender_type := "visitor", message_type := "ice-candidate",
    payload := { call_id := some "call-1" } }

end Examples

namespace Examples

/-- The visitor page of doorbell `owner-1` with only blanks typed in. -/
def blankPage : VisitorCallPage :=
  VisitorCallPage.typeName "  \t " (VisitorCallPage.initial "owner-1")

end Examples

/-! ## Facts about the log -/

theorem forwarded_append (a b : List Effect) : forwarded (a ++ b) = forwarded a ++ forwarded b := by
  simp [forwarded, List.filterMap_append]

theorem forwarded_addIceCandidate (pc : Nat) (q : List IceCandidate) :
    forwarded (q.map (Effect.addIceCandidate pc)) = q := by
  induction q with
  | nil => rfl
  | cons c rest ih =>
    have : forwarded (List.map (Effect.addIceCandidate pc) rest) = rest := ih
    simp only [forwarded, List.map_cons, List.filterMap_cons] at this ⊢
    simp [this]

theorem candidatesOf_append (a b : List Envelope) :
    candidatesOf (a ++ b) = candidatesOf a ++ candidatesOf b := by
  simp [candidatesOf, List.filterMap_append]

namespace Dashboard

theorem drainQueue_eq (pc : Nat) (q : List IceCandidate) (log : List Effect) :
    drainQueue pc q log = log ++ q.map (Effect.addIceCandidate pc) := by
  induction q generalizing log with
  | nil => simp [drainQueue]
  | cons c rest ih => simp [drainQueue, ih]

theorem clearOfferPolling_log (w : Dashboard) : (clearOfferPolling w).log = w.log := by
  unfold clearOfferPolling; cases w.offerPollingRef <;> rfl

theorem forwarded_stopLocalStream (ls : Option Nat) (w : Dashboard) :
    forwarded (stopLocalStream ls w).log = forwarded w.log := by
  cases ls <;> simp [stopLocalStream, forwarded]

theorem forwarded_closePeerConnection (pc : Option Nat) (w : Dashboard) :
    forwarded (closePeerConnection pc w).log = forwarded w.log := by
  cases pc <;> simp [closePeerConnection, forwarded]

theorem forwarded_endCall (ls pc : Option Nat) (w : Dashboard) :
    forwarded (endCall ls pc w).log = forwarded w.log := by
  simp [endCall, clearOfferPolling_log, forwarded_closePeerConnection, forwarded_stopLocalStream]

/-- With every call succeeding the `offer` branch sets the gate, forwards the queue in order
and empties it. -/
theorem handleOffer_success (n : Negotiation) (w : Dashboard) (msg : Envelope) :
    handleOffer Outcomes.success n w msg =
      { closure := { n with remoteDescriptionSet := true, iceCandidateQueue := [] }
        page := { w with log := w.log ++ [Effect.setRemoteDescription n.pc msg.payload.sdp] ++
          [Effect.send (answerEnvelope n)] ++ n.iceCandidateQueue.map (Effect.addIceCandidate n.pc) }
        threw := false } := by
  simp [handleOffer, Outcomes.success, drainQueue_eq]

/-- Invariant of a run in which every call succeeds: what has been forwarded followed by what
is queued is the arrival sequence, and nothing is queued once the gate is set. -/
theorem handleMessage_success (n : Negotiation) (w : Dashboard) (msg : Envelope)
    (hinv : n.remoteDescriptionSet = true → n.iceCandidateQueue = []) :
    (handleMessage Outcomes.success n w msg).threw = false ∧
    forwarded (handleMessage Outcomes.success n w msg).page.log ++
        (handleMessage Outcomes.success n w msg).closure.iceCandidateQueue
      = forwarded w.log ++ n.iceCandidateQueue ++ candidatesOf [msg] ∧
    ((handleMessage Outcomes.success n w msg).closure.remoteDescriptionSet = true →
      (handleMessage Outcomes.success n w msg).closure.iceCandidateQueue = []) ∧
    (handleMessage Outcomes.success n w msg).closure.remoteDescriptionSet
      = (n.remoteDescriptionSet || decide (msg.message_type = "offer")) := by
  unfold handleMessage
  by_cases hoffer : msg.message_type = "offer"
  · rw [if_pos hoffer, handleOffer_success]
    simp only [forwarded_append, forwarded_addIceCandidate]
    simp [hoffer, candidatesOf, forwarded]
  · rw [if_neg hoffer]
    by_cases hice : msg.message_type = "ice-candidate"
    · cases hc : msg.payload.candidate with
      | none =>
        simp [hoffer, hice, hc, candidatesOf]
        exact hinv
      | some c =>
        cases hg : n.remoteDescriptionSet with
        | false => simp [hoffer, hice, hc, hg, candidatesOf, handleCandidate]
        | true =>
          have hq := hinv hg
          simp [hoffer, hice, hc, hg, hq, candidatesOf, forwarded_append, forwarded,
            handleCandidate]
    · by_cases hend : msg.message_type = "end"
      · simp [hoffer, hice, hend, handleEnd, clearOfferPolling_log, forwarded_endCall,
          candidatesOf]
        exact hinv
      · simp [hoffer, hice, hend, candidatesOf]
        exact hinv

theorem handleBatch_success (msgs : List Envelope) (n : Negotiation) (w : Dashboard)
    (hinv : n.remoteDescriptionSet = true → n.iceCandidateQueue = []) :
    (handleBatch n w (allSucceed msgs)).threw = false ∧
    forwarded (handleBatch n w (allSucceed msgs)).page.log ++
        (handleBatch n w (allSucceed msgs)).closure.iceCandidateQueue
      = forwarded w.log ++ n.iceCandidateQueue ++ candidatesOf msgs ∧
    ((handleBatch n w (allSucceed msgs)).closure.remoteDescriptionSet = true →
      (handleBatch n w (allSucceed msgs)).closure.iceCandidateQueue = []) ∧
    (handleBatch n w (allSucceed msgs)).closure.remoteDescriptionSet
      = (n.remoteDescriptionSet || hasOffer msgs) := by
  induction msgs generalizing n w with
  | nil => simpa [allSucceed, handleBatch, candidatesOf, hasOffer] using hinv
  | cons m rest ih =>
    obtain ⟨h1, h2, h3, h4⟩ := handleMessage_success n w m hinv
    obtain ⟨k1, k2, k3, k4⟩ := ih (handleMessage Outcomes.success n w m).closure
      (handleMessage Outcomes.success n w m).page h3
    have hstep : handleBatch n w (allSucceed (m :: rest)) =
        handleBatch (handleMessage Outcomes.success n w m).closure
          (handleMessage Outcomes.success n w m).page (allSucceed rest) := by
      simp [allSucceed, handleBatch, h1]
    rw [hstep]
    refine ⟨k1, ?_, k3, ?_⟩
    · rw [k2, h2]
      have : candidatesOf (m :: rest) = candidatesOf [m] ++ candidatesOf rest :=
        candidatesOf_append [m] rest
      rw [this]; simp [List.append_assoc]
    · rw [k4, h4]; simp [hasOffer, Bool.or_assoc]

theorem handleBatches_success (batches : List (List Envelope)) (n : Negotiation) (w : Dashboard)
    (hinv : n.remoteDescriptionSet = true → n.iceCandidateQueue = []) :
    forwarded (handleBatches n w (batches.map allSucceed)).page.log ++
        (handleBatches n w (batches.map allSucceed)).closure.iceCandidateQueue
      = forwarded w.log ++ n.iceCandidateQueue ++ candidatesOf batches.flatten ∧
    ((handleBatches n w (batches.map allSucceed)).closure.remoteDescriptionSet = true →
      (handleBatches n w (batches.map allSucceed)).closure.iceCandidateQueue = []) ∧
    (handleBatches n w (batches.map allSucceed)).closure.remoteDescriptionSet
      = (n.remoteDescriptionSet || hasOffer batches.flatten) := by
  induction batches generalizing n w with
  | nil => simpa [handleBatches, candidatesOf, hasOffer] using hinv
  | cons b rest ih =>
    obtain ⟨_, h2, h3, h4⟩ := handleBatch_success b n w hinv
    obtain ⟨k2, k3, k4⟩ := ih (handleBatch n w (allSucceed b)).closure
      (handleBatch n w (allSucceed b)).page h3
    have hstep : handleBatches n w ((b :: rest).map allSucceed) =
        handleBatches (handleBatch n w (allSucceed b)).closure
          (handleBatch n w (allSucceed b)).page (rest.map allSucceed) := by
      simp [handleBatches]
    rw [hstep]
    refine ⟨?_, k3, ?_⟩
    · rw [k2, h2]; simp [candidatesOf_append, List.append_assoc]
    · rw [k4, h4]; simp [hasOffer, Bool.or_assoc]

/-- What `acceptCall` hands to its interval callback: an empty queue and an unset gate. -/
theorem acceptCall_closure (o : Outcomes) (w w1 : Dashboard) (n : Negotiation)
    (h : acceptCall o w = (w1, some n)) :
    n.iceCandidateQueue = [] ∧ n.remoteDescriptionSet = false ∧ w1.peerConnection = some n.pc ∧
      w1.isInCall = true ∧ w1.incomingCall = none ∧ w.incomingCall = some n.incomingCall := by
  unfold acceptCall at h
  cases hic : w.incomingCall with
  | none => simp [hic] at h
  | some ic =>
    simp only [hic] at h
    by_cases h1 : o.getUserMedia = true <;> by_cases h2 : o.newPeerConnection = true <;>
      by_cases h3 : o.send = true <;> simp [h1, h2, h3] at h
    obtain ⟨hw, hn⟩ := h
    subst hw; subst hn
    simp

/-- Candidates handled while the gate is unset go to the back of the queue and nothing else
changes. -/
theorem handleBatch_candidates (room : String) (cs : List IceCandidate) (n : Negotiation)
    (w : Dashboard) (rest : List (Envelope × Outcomes)) (hg : n.remoteDescriptionSet = false) :
    handleBatch n w (allSucceed (cs.map (visitorCandidate room)) ++ rest) =
      handleBatch { n with iceCandidateQueue := n.iceCandidateQueue ++ cs } w rest := by
  induction cs generalizing n with
  | nil => simp [allSucceed]
  | cons c cs ih =>
    have hstep : handleMessage Outcomes.success n w (visitorCandidate room c) =
        { closure := { n with iceCandidateQueue := n.iceCandidateQueue ++ [c] }, page := w,
          threw := false } := by
      simp [handleMessage, visitorCandidate, handleCandidate, hg]
    have := ih { n with iceCandidateQueue := n.iceCandidateQueue ++ [c] } hg
    simp only [allSucceed, List.map_cons, List.cons_append, handleBatch, hstep] at this ⊢
    simpa [List.append_assoc] using this

/-- C1. Owner candidate buffer, whole run: after `acceptCall` started the negotiation interval,
for every sequence of polled batches that contains an `offer` and in which every call
succeeds, the candidates passed to `addIceCandidate` are exactly the candidates carried by
the `ice-candidate` envelopes, in arrival order (each once, none left in the queue). -/
theorem owner_candidates_forwarded_in_arrival_order (o : Outcomes) (w w1 : Dashboard)
    (n : Negotiation) (batches : List (List Envelope))
    (haccept : acceptCall o w = (w1, some n))
    (hoffer : ∃ m ∈ batches.flatten, m.message_type = "offer") :
    forwarded (handleBatches n w1 (batches.map allSucceed)).page.log
        = forwarded w1.log ++ candidatesOf batches.flatten ∧
      (handleBatches n w1 (batches.map allSucceed)).closure.iceCandidateQueue = [] := by
  obtain ⟨hq, hg, _⟩ := acceptCall_closure o w w1 n haccept
  obtain ⟨h1, h2, h3⟩ := handleBatches_success batches n w1 (by simp [hg])
  have hset : (handleBatches n w1 (batches.map allSucceed)).closure.remoteDescriptionSet
      = true := by
    rw [h3, hg]
    obtain ⟨m, hm, ht⟩ := hoffer
    simp only [Bool.false_or, hasOffer, List.any_eq_true]
    exact ⟨m, hm, by simp [ht]⟩
  have hempty := h2 hset
  refine ⟨?_, hempty⟩
  rw [hempty, hq] at h1
  simpa using h1

theorem owner_candidates_forwarded_in_arrival_order_witness :
    acceptCall Outcomes.success Examples.incoming = (Examples.inCall, some Examples.negotiation) ∧
    (∃ m ∈ [[visitorCandidate "owner-1" Examples.c1, visitorCandidate "owner-1" Examples.c2],
        [visitorOffer "owner-1", visitorCandidate "owner-1" Examples.c3]].flatten,
        m.message_type = "offer") ∧
    (forwarded (handleBatches Examples.negotiation Examples.inCall
        ([[visitorCandidate "owner-1" Examples.c1, visitorCandidate "owner-1" Examples.c2],
          [visitorOffer "owner-1", visitorCandidate "owner-1" Examples.c3]].map
            allSucceed)).page.log
        = forwarded Examples.inCall.log ++
          candidatesOf [[visitorCandidate "owner-1" Examples.c1,
            visitorCandidate "owner-1" Examples.c2],
            [visitorOffer "owner-1", visitorCandidate "owner-1" Examples.c3]].flatten ∧
      (handleBatches Examples.negotiation Examples.inCall
        ([[visitorCandidate "owner-1" Examples.c1, visitorCandidate "owner-1" Examples.c2],
          [visitorOffer "owner-1", visitorCandidate "owner-1" Examples.c3]].map
            allSucceed)).closure.iceCandidateQueue = []) :=
  ⟨by decide, ⟨visitorOffer "owner-1", by decide, by decide⟩,
    owner_candidates_forwarded_in_arrival_order Outcomes.success Examples.incoming
      Examples.inCall Examples.negotiation _ (by decide)
      ⟨visitorOffer "owner-1", by decide, by decide⟩⟩

/-- C4. Owner candidates that arrive before the offer: for every list `cs` of candidates
handled while the gate is unset, none is forwarded and all sit in the queue in arrival order;
when the `offer` that follows is applied but `createAnswer` rejects, the exception leaves the
callback before the queue is emptied: the gate is set, nothing has been forwarded and the
candidates are still queued. -/
theorem owner_queue_not_released_when_answer_fails (room : String) (cs : List IceCandidate)
    (n : Negotiation) (w : Dashboard) (offer : Envelope) (o : Outcomes) :
    (handleBatch { n with remoteDescriptionSet := false, iceCandidateQueue := [] } w
        (allSucceed (cs.map (visitorCandidate room)))).closure.iceCandidateQueue = cs ∧
    forwarded (handleBatch { n with remoteDescriptionSet := false, iceCandidateQueue := [] } w
        (allSucceed (cs.map (visitorCandidate room)))).page.log = forwarded w.log ∧
    (handleBatch { n with remoteDescriptionSet := false, iceCandidateQueue := [] } w
        (allSucceed (cs.map (visitorCandidate room)) ++
          [({ offer with message_type := "offer" },
            { o with setRemoteDescription := true, createAnswer := false })])).threw = true ∧
    (handleBatch { n with remoteDescriptionSet := false, iceCandidateQueue := [] } w
        (allSucceed (cs.map (visitorCandidate room)) ++
          [({ offer with message_type := "offer" },
            { o with setRemoteDescription := true, createAnswer := false })])).closure
        = { n with remoteDescriptionSet := true, iceCandidateQueue := cs } ∧
    forwarded (handleBatch { n with remoteDescriptionSet := false, iceCandidateQueue := [] } w
        (allSucceed (cs.map (visitorCandidate room)) ++
          [({ offer with message_type := "offer" },
            { o with setRemoteDescription := true, createAnswer := false })])).page.log
        = forwarded w.log := by
  have h0 := handleBatch_candidates room cs
    { n with remoteDescriptionSet := false, iceCandidateQueue := [] } w [] rfl
  rw [List.append_nil] at h0
  rw [h0, handleBatch_candidates room cs _ w _ rfl]
  simp [handleBatch, handleMessage, handleOffer, forwarded_append, forwarded]

/-- C5. Unlock is idempotent on the owner side: when an `offer` is handled a second time right
after the first, every call succeeding, the second handling forwards no candidate and leaves
the closure locals as the first left them: gate set, queue empty. -/
theorem owner_second_offer_forwards_nothing (n : Negotiation) (w : Dashboard)
    (first second : Envelope)
    (hfirst : first.message_type = "offer") (hsecond : second.message_type = "offer") :
    (handleMessage Outcomes.success n w first).closure.remoteDescriptionSet = true ∧
    (handleMessage Outcomes.success n w first).closure.iceCandidateQueue = [] ∧
    forwarded (handleMessage Outcomes.success (handleMessage Outcomes.success n w first).closure
        (handleMessage Outcomes.success n w first).page second).page.log
      = forwarded (handleMessage Outcomes.success n w first).page.log ∧
    (handleMessage Outcomes.success (handleMessage Outcomes.success n w first).closure
        (handleMessage Outcomes.success n w first).page second).closure
      = (handleMessage Outcomes.success n w first).closure := by
  simp [handleMessage, hfirst, hsecond, handleOffer_success, forwarded_append, forwarded]

theorem owner_second_offer_forwards_nothing_witness :
    (visitorOffer "owner-1").message_type = "offer" ∧
    (visitorOffer "owner-1").message_type = "offer" ∧
    ((handleMessage Outcomes.success
        { Examples.negotiation with iceCandidateQueue := [Examples.c1, Examples.c2] }
        Examples.inCall (visitorOffer "owner-1")).closure.remoteDescriptionSet = true ∧
    (handleMessage Outcomes.success
        { Examples.negotiation with iceCandidateQueue := [Examples.c1, Examples.c2] }
        Examples.inCall (visitorOffer "owner-1")).closure.iceCandidateQueue = [] ∧
    forwarded (handleMessage Outcomes.success (handleMessage Outcomes.success
        { Examples.negotiation with iceCandidateQueue := [Examples.c1, Examples.c2] }
        Examples.inCall (visitorOffer "owner-1")).closure
        (handleMessage Outcomes.success
          { Examples.negotiation with iceCandidateQueue := [Examples.c1, Examples.c2] }
          Examples.inCall (visitorOffer "owner-1")).page (visitorOffer "owner-1")).page.log
      = forwarded (handleMessage Outcomes.success
          { Examples.negotiation with iceCandidateQueue := [Examples.c1, Examples.c2] }
          Examples.inCall (visitorOffer "owner-1")).page.log ∧
    (handleMessage Outcomes.success (handleMessage Outcomes.success
        { Examples.negotiation with iceCandidateQueue := [Examples.c1, Examples.c2] }
        Examples.inCall (visitorOffer "owner-1")).closure
        (handleMessage Outcomes.success
          { Examples.negotiation with iceCandidateQueue := [Examples.c1, Examples.c2] }
          Examples.inCall (visitorOffer "owner-1")).page (visitorOffer "owner-1")).closure
      = (handleMessage Outcomes.success
          { Examples.negotiation with iceCandidateQueue := [Examples.c1, Examples.c2] }
          Examples.inCall (visitorOffer "owner-1")).closure) :=
  ⟨rfl, rfl, owner_second_offer_forwards_nothing _ _ _ _ rfl rfl⟩

theorem pollForCalls_tracked (ic : IncomingCall) (w : Dashboard) (msgs : List Envelope) :
    pollForCalls (some ic) w msgs = w := by
  induction msgs with
  | nil => rfl
  | cons m rest ih =>
    simpa [pollForCalls, pollForCallsStep] using ih

theorem pollForCalls_other_kinds (captured : Option IncomingCall) (w : Dashboard)
    (msgs : List Envelope) (h : ∀ m ∈ msgs, m.message_type ≠ "ring") :
    pollForCalls captured w msgs = w := by
  induction msgs with
  | nil => rfl
  | cons m rest ih =>
    have hm : m.message_type ≠ "ring" := h m (List.mem_cons_self _ _)
    have hrest := ih (fun x hx => h x (List.mem_cons_of_mem _ hx))
    simpa [pollForCalls, pollForCallsStep, hm] using hrest

/-- C6. At most one incoming call is tracked, across polls but not within one: once the
dashboard has rendered with a tracked call, a later poll leaves everything unchanged whatever
it delivers; but when one poll delivers two `ring` envelopes while no call is tracked, both are
stored and the second replaces the first. -/
theorem second_ring_of_batch_replaces_first :
    (∀ (w : Dashboard) (ic : IncomingCall) (msgs : List Envelope),
      pollTick { w with incomingCall := some ic } msgs = { w with incomingCall := some ic }) ∧
    (pollTick (Dashboard.initial "owner-1")
      [visitorRing "owner-1" "Alex" "call-1"]).incomingCall = some Examples.alex ∧
    (pollTick (Dashboard.initial "owner-1")
      [visitorRing "owner-1" "Alex" "call-1", visitorRing "owner-1" "Sam" "call-2"]).incomingCall
        = some { visitorName := "Sam", callId := some "call-2", roomId := "owner-1" } := by
  refine ⟨?_, by decide, by decide⟩
  intro w ic msgs
  unfold pollTick
  split
  · exact pollForCalls_tracked ic _ msgs
  · rfl

/-- C7. Ring surfaces as incoming: when the owner is logged in, not in a call and tracks no
incoming call, a polled `ring` makes the tracked call carry the visitor name of the payload
("Unknown Visitor" when it is absent or empty), the call id of the payload and the room id of
the envelope, and changes nothing else; a poll that delivers only envelopes of other kinds
leaves the dashboard unchanged in every state. -/
theorem ring_surfaces_as_incoming (w : Dashboard) (msg : Envelope)
    (huser : w.user.isSome = true) (hfree : w.isInCall = false) (hnone : w.incomingCall = none)
    (hring : msg.message_type = "ring") :
    pollTick w [msg] = { w with incomingCall := some (IncomingCall.mk
        (match msg.payload.visitor_name with
          | some v => if v = "" then "Unknown Visitor" else v
          | none => "Unknown Visitor")
        msg.payload.call_id msg.room_id) } ∧
    ∀ (v : Dashboard) (others : List Envelope), (∀ m ∈ others, m.message_type ≠ "ring") →
      pollTick v others = v := by
  constructor
  · cases hname : msg.payload.visitor_name with
    | none =>
      simp [pollTick, pollsForCalls, huser, hfree, hnone, pollForCalls, pollForCallsStep, hring,
        truthyString, hname]
    | some v =>
      by_cases hv : v = "" <;>
        simp [pollTick, pollsForCalls, huser, hfree, hnone, pollForCalls, pollForCallsStep,
          hring, truthyString, hname, hv]
  · intro v others hothers
    unfold pollTick
    split
    · exact pollForCalls_other_kinds _ v others hothers
    · rfl

theorem ring_surfaces_as_incoming_witness :
    (Dashboard.initial "owner-1").user.isSome = true ∧
    (Dashboard.initial "owner-1").isInCall = false ∧
    (Dashboard.initial "owner-1").incomingCall = none ∧
    (visitorRing "owner-1" "Alex" "call-1").message_type = "ring" ∧
    (pollTick (Dashboard.initial "owner-1") [visitorRing "owner-1" "Alex" "call-1"] =
      { Dashboard.initial "owner-1" with incomingCall := some (IncomingCall.mk
          (match (visitorRing "owner-1" "Alex" "call-1").payload.visitor_name with
            | some v => if v = "" then "Unknown Visitor" else v
            | none => "Unknown Visitor")
          (visitorRing "owner-1" "Alex" "call-1").payload.call_id
          (visitorRing "owner-1" "Alex" "call-1").room_id) } ∧
    ∀ (v : Dashboard) (others : List Envelope), (∀ m ∈ others, m.message_type ≠ "ring") →
      pollTick v others = v) :=
  ⟨rfl, rfl, rfl, rfl,
    ring_surfaces_as_incoming (Dashboard.initial "owner-1") (visitorRing "owner-1" "Alex" "call-1")
      rfl rfl rfl rfl⟩

end Dashboard

namespace VisitorCallPage

/-- C2. Visitor candidate gate: the test `if (remoteDescSet)` of the interval callback reads the
value of the render in which `ringDoorbell` ran.  After Alex rang, the owner accepted and the
answer was applied (the gate in the state is set), a candidate delivered by the next poll is
appended to the queue and not passed to `addIceCandidate`. -/
theorem visitor_candidate_after_answer_is_queued :
    clickRing Examples.relayAccepts Examples.page = (Examples.ringing, some Examples.ring) ∧
    (handleBatches Examples.ring Examples.ringing
      [allSucceed [Examples.accept], allSucceed [Examples.answer]]).2.remoteDescSet = true ∧
    (handleBatches Examples.ring Examples.ringing
      [allSucceed [Examples.accept], allSucceed [Examples.answer]]).2.peerConnection = some 2 ∧
    (handleBatches Examples.ring Examples.ringing
      [allSucceed [Examples.accept], allSucceed [Examples.answer],
        allSucceed [Examples.candidate Examples.c1]]).2.iceCandidateQueue = [Examples.c1] ∧
    forwarded (handleBatches Examples.ring Examples.ringing
      [allSucceed [Examples.accept], allSucceed [Examples.answer],
        allSucceed [Examples.candidate Examples.c1]]).2.log = [] := by
  decide

/-- C3. Visitor unlock on answer: when an `answer` is handled while the state holds a connection
that is not closed and `setRemoteDescription` resolves, the gate is set, every queued candidate
is passed to `addIceCandidate` of that connection in queue order, and the queue is emptied;
nothing else changes. -/
theorem visitor_answer_unlocks_queue (o : Outcomes) (r : Ringing) (w : VisitorCallPage)
    (msg : Envelope) (pc : Nat)
    (hkind : msg.message_type = "answer") (hpc : w.peerConnection = some pc)
    (hopen : pc ∉ w.closed) (hok : o.setRemoteDescription = true) :
    handleMessage o r w msg =
      (r, { w with remoteDescSet := true, iceCandidateQueue := [],
                   log := w.log ++ [Effect.setRemoteDescription pc msg.payload.sdp] ++
                     w.iceCandidateQueue.map (Effect.addIceCandidate pc) }) := by
  simp [handleMessage, hkind, handleAnswer, hpc, hopen, hok, forwardQueue]

theorem visitor_answer_unlocks_queue_witness :
    Examples.answer.message_type = "answer" ∧
    Examples.queued.peerConnection = some 2 ∧
    2 ∉ Examples.queued.closed ∧
    Outcomes.success.setRemoteDescription = true ∧
    handleMessage Outcomes.success Examples.ring Examples.queued Examples.answer =
      (Examples.ring,
        { Examples.queued with
          remoteDescSet := true, iceCandidateQueue := [],
          log := Examples.queued.log ++
            [Effect.setRemoteDescription 2 Examples.answer.payload.sdp] ++
            Examples.queued.iceCandidateQueue.map (Effect.addIceCandidate 2) }) :=
  ⟨rfl, rfl, by decide, rfl,
    visitor_answer_unlocks_queue Outcomes.success Examples.ring Examples.queued Examples.answer 2
      rfl rfl (by decide) rfl⟩

/-- C8. Visitor response timeout: the timer callback tests the `callState` of the render in
which `ringDoorbell` ran, which is "idle".  After Alex rang and no envelope arrived, the firing
of the timer changes nothing: the call state is still "ringing" (not "timed_out", and not the
"ended" the callback would set) and the interval keeps running. -/
theorem response_timeout_changes_nothing :
    clickRing Examples.relayAccepts Examples.page = (Examples.ringing, some Examples.ring) ∧
    Examples.ring.render.callState = "idle" ∧
    responseTimeout Examples.ring Examples.ringing = Examples.ringing ∧
    (responseTimeout Examples.ring Examples.ringing).callState = "ringing" ∧
    (responseTimeout Examples.ring Examples.ringing).callState ≠ "timed_out" ∧
    Examples.ring.interval ∈ (responseTimeout Examples.ring Examples.ringing).intervals ∧
    (responseTimeout Examples.ring Examples.ringing).pollingIntervalRef
      = some Examples.ring.interval := by
  decide

theorem acquired_append (a b : List Effect) : acquired (a ++ b) = acquired a ++ acquired b := by
  simp [acquired, List.filter_append]

theorem handleBatch_append (r : Ringing) (w : VisitorCallPage)
    (a b : List (Envelope × Outcomes)) :
    handleBatch r w (a ++ b) = handleBatch (handleBatch r w a).1 (handleBatch r w a).2 b := by
  induction a generalizing r w with
  | nil => rfl
  | cons p rest ih =>
    obtain ⟨m, o⟩ := p
    simp only [List.cons_append, handleBatch]
    exact ih _ _

/-- An envelope that is neither `accept`, `reject` nor `end` leaves the closure locals, the call
state, the interval, the acquired media and connections untouched. -/
theorem handleMessage_other (o : Outcomes) (r : Ringing) (w : VisitorCallPage) (msg : Envelope)
    (haccept : msg.message_type ≠ "accept") (hreject : msg.message_type ≠ "reject")
    (hend : msg.message_type ≠ "end") :
    (handleMessage o r w msg).1 = r ∧
      attemptView (handleMessage o r w msg).2 = attemptView w := by
  unfold handleMessage
  rw [if_neg (by simp [haccept]), if_neg hreject]
  by_cases hanswer : msg.message_type = "answer"
  · rw [if_pos hanswer]
    unfold handleAnswer
    cases hpc : w.peerConnection with
    | none => simp
    | some pc =>
      by_cases hclosed : pc ∈ w.closed
      · simp [hclosed]
      · cases hok : o.setRemoteDescription <;>
          simp [hclosed, attemptView, acquired_append, acquired, forwardQueue, hpc,
            List.filter_map, Function.comp_def]
  · rw [if_neg hanswer]
    by_cases hice : msg.message_type = "ice-candidate" ∧ msg.payload.candidate.isSome
    · rw [if_pos hice]
      cases hc : msg.payload.candidate with
      | none => simp
      | some c =>
        unfold handleCandidate
        cases hg : r.render.remoteDescSet with
        | false => simp [attemptView]
        | true =>
          cases hpc : w.peerConnection with
          | none => simp
          | some pc =>
            by_cases hclosed : pc ∈ w.closed
            · simp [hclosed]
            · simp [hclosed, attemptView, acquired_append, acquired, hpc]
    · rw [if_neg hice, if_neg hend]
      simp

theorem handleBatch_other (r : Ringing) (w : VisitorCallPage) (pre : List (Envelope × Outcomes))
    (hpre : ∀ p ∈ pre, p.1.message_type ≠ "accept" ∧ p.1.message_type ≠ "reject" ∧
      p.1.message_type ≠ "end") :
    (handleBatch r w pre).1 = r ∧ attemptView (handleBatch r w pre).2 = attemptView w := by
  induction pre generalizing w with
  | nil => exact ⟨rfl, rfl⟩
  | cons p rest ih =>
    obtain ⟨m, o⟩ := p
    obtain ⟨ha, hr, he⟩ := hpre (m, o) (List.mem_cons_self _ _)
    obtain ⟨h1, h2⟩ := handleMessage_other o r w m ha hr he
    have hrest := ih (handleMessage o r w m).2 (fun x hx => hpre x (List.mem_cons_of_mem _ hx))
    simp only [handleBatch, h1]
    exact ⟨hrest.1, hrest.2.trans h2⟩

/-- What a successful click on "Ring Doorbell" leaves behind. -/
theorem clickRing_started (o : Outcomes) (w w1 : VisitorCallPage) (r : Ringing)
    (h : clickRing o w = (w1, some r)) :
    w.callState = "idle" ∧ r.render = w.render ∧ r.callAccepted = false ∧
    w1.callState = "ringing" ∧ w1.pollingIntervalRef = some r.interval ∧
    r.interval ∈ w1.intervals ∧ acquired w1.log = acquired w.log ∧
    w1.localStream = w.localStream ∧ w1.peerConnection = w.peerConnection := by
  unfold clickRing at h
  by_cases hidle : w.error = none ∧ w.callState = "idle"
  · rw [if_pos hidle] at h
    unfold ringDoorbell at h
    by_cases hname : trimIsEmpty w.visitorName = true
    · simp [hname] at h
    · by_cases hsend : o.send = true
      · simp [hname, hsend] at h
        obtain ⟨hw, hr⟩ := h
        subst hw; subst hr
        simp [hidle.2, acquired_append, acquired]
      · by_cases hf : o.forbidden = true <;> simp [hname, hsend, hf] at h
  · rw [if_neg hidle] at h
    simp at h

/-- C9. Reject while ringing: after a successful ring, when the envelopes handled before the
first response are neither `accept`, `reject` nor `end` and the first response is a `reject`,
the visitor is ringing until then and afterwards the call state is "rejected", the interval of
this ring is cleared, and from the click on no `getUserMedia` and no `RTCPeerConnection` call
was made (local stream and connection in the state are those from before the ring). -/
theorem reject_while_ringing (o o2 : Outcomes) (w w1 : VisitorCallPage) (r : Ringing)
    (pre : List (Envelope × Outcomes)) (reject : Envelope)
    (hring : clickRing o w = (w1, some r))
    (hpre : ∀ p ∈ pre, p.1.message_type ≠ "accept" ∧ p.1.message_type ≠ "reject" ∧
      p.1.message_type ≠ "end")
    (hreject : reject.message_type = "reject") :
    (handleBatch r w1 pre).2.callState = "ringing" ∧
    (handleBatch r w1 (pre ++ [(reject, o2)])).2.callState = "rejected" ∧
    (handleBatch r w1 (pre ++ [(reject, o2)])).2.pollingIntervalRef = none ∧
    r.interval ∉ (handleBatch r w1 (pre ++ [(reject, o2)])).2.intervals ∧
    acquired (handleBatch r w1 (pre ++ [(reject, o2)])).2.log = acquired w.log ∧
    (handleBatch r w1 (pre ++ [(reject, o2)])).2.localStream = w.localStream ∧
    (handleBatch r w1 (pre ++ [(reject, o2)])).2.peerConnection = w.peerConnection := by
  obtain ⟨_, _, hflag, hstate, href, _, hacq, hls, hpc⟩ := clickRing_started o w w1 r hring
  obtain ⟨h1, h2⟩ := handleBatch_other r w1 pre hpre
  simp only [attemptView, Prod.mk.injEq] at h2
  obtain ⟨k1, k2, k3, k4, k5, k6⟩ := h2
  have hstep : handleBatch r w1 (pre ++ [(reject, o2)]) =
      (r, { clearPolling (handleBatch r w1 pre).2 with callState := "rejected" }) := by
    rw [handleBatch_append, h1]
    simp [handleBatch, handleMessage, hreject, handleReject]
  rw [hstep]
  have hclear : clearPolling (handleBatch r w1 pre).2 =
      { (handleBatch r w1 pre).2 with
          intervals := (handleBatch r w1 pre).2.intervals.filter (fun j => j != r.interval),
          pollingIntervalRef := none } := by
    simp [clearPolling, k2, href]
  refine ⟨k1.trans hstate, rfl, ?_, ?_, ?_, ?_, ?_⟩
  · simp [hclear]
  · simp [hclear]
  · simp [hclear, k4, hacq]
  · simp [hclear, k5, hls]
  · simp [hclear, k6, hpc]

theorem reject_while_ringing_witness :
    clickRing Examples.relayAccepts Examples.page = (Examples.ringing, some Examples.ring) ∧
    (∀ p ∈ allSucceed [Examples.candidate Examples.c1],
      p.1.message_type ≠ "accept" ∧ p.1.message_type ≠ "reject" ∧ p.1.message_type ≠ "end") ∧
    Examples.reject.message_type = "reject" ∧
    ((handleBatch Examples.ring Examples.ringing
        (allSucceed [Examples.candidate Examples.c1])).2.callState = "ringing" ∧
    (handleBatch Examples.ring Examples.ringing (allSucceed [Examples.candidate Examples.c1] ++
        [(Examples.reject, Outcomes.success)])).2.callState = "rejected" ∧
    (handleBatch Examples.ring Examples.ringing (allSucceed [Examples.candidate Examples.c1] ++
        [(Examples.reject, Outcomes.success)])).2.pollingIntervalRef = none ∧
    Examples.ring.interval ∉ (handleBatch Examples.ring Examples.ringing
        (allSucceed [Examples.candidate Examples.c1] ++
          [(Examples.reject, Outcomes.success)])).2.intervals ∧
    acquired (handleBatch Examples.ring Examples.ringing
        (allSucceed [Examples.candidate Examples.c1] ++
          [(Examples.reject, Outcomes.success)])).2.log = acquired Examples.page.log ∧
    (handleBatch Examples.ring Examples.ringing (allSucceed [Examples.candidate Examples.c1] ++
        [(Examples.reject, Outcomes.success)])).2.localStream = Examples.page.localStream ∧
    (handleBatch Examples.ring Examples.ringing (allSucceed [Examples.candidate Examples.c1] ++
        [(Examples.reject, Outcomes.success)])).2.peerConnection
      = Examples.page.peerConnection) :=
  ⟨by decide, by decide, rfl,
    reject_while_ringing Examples.relayAccepts Outcomes.success Examples.page Examples.ringing
      Examples.ring (allSucceed [Examples.candidate Examples.c1]) Examples.reject
      (by decide) (by decide) rfl⟩

/-- The claim of C10 fails for the idle state reached by "Cancel": Alex rings and cancels, the
interval keeps running with `callAccepted` unset, and the `accept` it then handles (every call
succeeding) acquires local media, creates a connection, posts an offer and moves the call
state from "idle" to "connected". -/
theorem accept_after_cancel_starts_call :
    clickRing Examples.relayAccepts Examples.page = (Examples.ringing, some Examples.ring) ∧
    (clickCancel Examples.ringing).callState = "idle" ∧
    (handleMessage Outcomes.success Examples.ring (clickCancel Examples.ringing)
      Examples.accept).2.callState = "connected" ∧
    (handleMessage Outcomes.success Examples.ring (clickCancel Examples.ringing)
      Examples.accept).2.log = (clickCancel Examples.ringing).log ++
        [Effect.getUserMedia 1, Effect.newPeerConnection 2,
          Effect.send (offerEnvelope Examples.ringing)] := by
  decide

/-- C10 as amended. Duplicate accept is ignored: once the interval callback of an attempt has
handled an `accept` (its `callAccepted` is set), a further `accept` leaves the closure locals and
the whole state unchanged, whatever the call state is: no media is acquired, no connection
created and no offer posted. -/
theorem duplicate_accept_ignored (o : Outcomes) (r : Ringing) (w : VisitorCallPage)
    (msg : Envelope) (hkind : msg.message_type = "accept") (hflag : r.callAccepted = true) :
    handleMessage o r w msg = (r, w) := by
  simp [handleMessage, hkind, hflag]

theorem duplicate_accept_ignored_witness :
    Examples.accept.message_type = "accept" ∧
    (handleMessage Outcomes.success Examples.ring Examples.ringing
      Examples.accept).1.callAccepted = true ∧
    handleMessage Outcomes.success
        (handleMessage Outcomes.success Examples.ring Examples.ringing Examples.accept).1
        (handleMessage Outcomes.success Examples.ring Examples.ringing Examples.accept).2
        Examples.accept
      = ((handleMessage Outcomes.success Examples.ring Examples.ringing Examples.accept).1,
         (handleMessage Outcomes.success Examples.ring Examples.ringing Examples.accept).2) :=
  ⟨rfl, by decide,
    duplicate_accept_ignored Outcomes.success
      (handleMessage Outcomes.success Examples.ring Examples.ringing Examples.accept).1
      (handleMessage Outcomes.success Examples.ring Examples.ringing Examples.accept).2
      Examples.accept rfl (by decide)⟩

end VisitorCallPage

/-! ## Stale envelopes, connected state and teardown -/

theorem sent_append (a b : List Effect) : sent (a ++ b) = sent a ++ sent b := by
  simp [sent, List.filterMap_append]

theorem persisted_append (a b : List Effect) :
    persisted (a ++ b) = persisted a ++ persisted b := by
  simp [persisted, List.filterMap_append]

theorem released_append (a b : List Effect) : released (a ++ b) = released a ++ released b := by
  simp [released, List.filter_append]

namespace VisitorCallPage

/-- The claim of C11 fails in the connected state: after Alex rang and the owner's `accept` was
handled (call state "connected"), a `reject` handled by the same interval callback sets the call
state to "rejected" and clears the interval. -/
theorem reject_while_connected_is_applied :
    Examples.called.page.callState = "connected" ∧
    Examples.called.attempts = [{ Examples.ring with callAccepted := true }] ∧
    Examples.called.page.pollingIntervalRef = some 0 ∧
    (handleMessage Outcomes.success { Examples.ring with callAccepted := true }
      Examples.called.page Examples.reject).2.callState = "rejected" ∧
    (handleMessage Outcomes.success { Examples.ring with callAccepted := true }
      Examples.called.page Examples.reject).2.pollingIntervalRef = none ∧
    (handleMessage Outcomes.success { Examples.ring with callAccepted := true }
      Examples.called.page Examples.reject).2.intervals = [] := by
  decide

/-- C11 as amended. A `reject` is applied in every call state: the interval callback clears
the interval held in `pollingIntervalRef` and sets the call state to "rejected"; the closure
locals, the local stream, the connection and the log are left as they are. -/
theorem reject_applied_in_every_state (o : Outcomes) (r : Ringing) (w : VisitorCallPage)
    (msg : Envelope) (hkind : msg.message_type = "reject") :
    handleMessage o r w msg = (r, { clearPolling w with callState := "rejected" }) ∧
    (handleMessage o r w msg).2.callState = "rejected" ∧
    (handleMessage o r w msg).2.pollingIntervalRef = none ∧
    (∀ i, w.pollingIntervalRef = some i → i ∉ (handleMessage o r w msg).2.intervals) ∧
    (handleMessage o r w msg).2.localStream = w.localStream ∧
    (handleMessage o r w msg).2.peerConnection = w.peerConnection ∧
    (handleMessage o r w msg).2.log = w.log := by
  have h : handleMessage o r w msg = (r, { clearPolling w with callState := "rejected" }) := by
    simp [handleMessage, hkind, handleReject]
  rw [h]
  cases href : w.pollingIntervalRef <;> simp [clearPolling, href]

theorem reject_applied_in_every_state_witness :
    Examples.reject.message_type = "reject" ∧
    (handleMessage Outcomes.success { Examples.ring with callAccepted := true }
        Examples.called.page Examples.reject
      = ({ Examples.ring with callAccepted := true },
         { clearPolling Examples.called.page with callState := "rejected" }) ∧
    (handleMessage Outcomes.success { Examples.ring with callAccepted := true }
      Examples.called.page Examples.reject).2.callState = "rejected" ∧
    (handleMessage Outcomes.success { Examples.ring with callAccepted := true }
      Examples.called.page Examples.reject).2.pollingIntervalRef = none ∧
    (∀ i, Examples.called.page.pollingIntervalRef = some i →
      i ∉ (handleMessage Outcomes.success { Examples.ring with callAccepted := true }
        Examples.called.page Examples.reject).2.intervals) ∧
    (handleMessage Outcomes.success { Examples.ring with callAccepted := true }
      Examples.called.page Examples.reject).2.localStream = Examples.called.page.localStream ∧
    (handleMessage Outcomes.success { Examples.ring with callAccepted := true }
      Examples.called.page Examples.reject).2.peerConnection
        = Examples.called.page.peerConnection ∧
    (handleMessage Outcomes.success { Examples.ring with callAccepted := true }
      Examples.called.page Examples.reject).2.log = Examples.called.page.log) :=
  ⟨rfl, reject_applied_in_every_state Outcomes.success { Examples.ring with callAccepted := true }
    Examples.called.page Examples.reject rfl⟩

/-- C13. Visitor teardown on a received `end`: the `endCall` the interval callback runs is the one
of the render in which `ringDoorbell` ran, where `localStream` and `peerConnection` were null.
After Alex rang and the call was started (stream 1, connection 2), handling `end` clears the
interval and sets the call state to "ended", but no track is stopped and no connection is
closed: stream and connection stay in the state. -/
theorem visitor_end_received_releases_nothing :
    Examples.called.page.localStream = some 1 ∧
    Examples.called.page.peerConnection = some 2 ∧
    Examples.called.attempts = [{ Examples.ring with callAccepted := true }] ∧
    (handleMessage Outcomes.success { Examples.ring with callAccepted := true }
      Examples.called.page (Examples.endOfCall "owner")).2.callState = "ended" ∧
    (handleMessage Outcomes.success { Examples.ring with callAccepted := true }
      Examples.called.page (Examples.endOfCall "owner")).2.intervals = [] ∧
    released (handleMessage Outcomes.success { Examples.ring with callAccepted := true }
      Examples.called.page (Examples.endOfCall "owner")).2.log = [] ∧
    (handleMessage Outcomes.success { Examples.ring with callAccepted := true }
      Examples.called.page (Examples.endOfCall "owner")).2.closed = [] ∧
    (handleMessage Outcomes.success { Examples.ring with callAccepted := true }
      Examples.called.page (Examples.endOfCall "owner")).2.localStream = some 1 ∧
    (handleMessage Outcomes.success { Examples.ring with callAccepted := true }
      Examples.called.page (Examples.endOfCall "owner")).2.peerConnection = some 2 := by
  decide

end VisitorCallPage

namespace Dashboard

/-- C14. Owner teardown on a received `end`: the `endCall` the interval callback runs is the one
of the render in which `acceptCall` ran, where `localStream` and `peerConnection` were null.
After the owner accepted the call of Alex (stream 0, connection 1), handling `end` clears the
negotiation interval and leaves the call, but no track is stopped and no connection is closed:
stream and connection stay in the state. -/
theorem owner_end_received_releases_nothing :
    acceptCall Outcomes.success Examples.incoming = (Examples.inCall, some Examples.negotiation) ∧
    (handleMessage Outcomes.success Examples.negotiation Examples.inCall
      (Examples.endOfCall "visitor")).page.isInCall = false ∧
    (handleMessage Outcomes.success Examples.negotiation Examples.inCall
      (Examples.endOfCall "visitor")).page.offerPollingRef = none ∧
    (handleMessage Outcomes.success Examples.negotiation Examples.inCall
      (Examples.endOfCall "visitor")).page.intervals = [] ∧
    released (handleMessage Outcomes.success Examples.negotiation Examples.inCall
      (Examples.endOfCall "visitor")).page.log = [] ∧
    (handleMessage Outcomes.success Examples.negotiation Examples.inCall
      (Examples.endOfCall "visitor")).page.localStream = some 0 ∧
    (handleMessage Outcomes.success Examples.negotiation Examples.inCall
      (Examples.endOfCall "visitor")).page.peerConnection = some 1 := by
  decide

theorem sent_endCall (ls pc : Option Nat) (w : Dashboard) :
    sent (endCall ls pc w).log = sent w.log := by
  cases ls <;> cases pc <;>
    simp [endCall, clearOfferPolling_log, stopLocalStream, closePeerConnection, sent_append, sent]

/-- C15. Owner hang-up: `endCall` posts nothing.  Whatever the state, the "End Call" button of
the owner leaves the list of envelopes sent to the relay as it was; after the accepted call of
Alex it stops the tracks, closes the connection and leaves the call without any `end` envelope
(the only envelope ever sent is the `accept`). -/
theorem owner_endCall_sends_nothing :
    (∀ w : Dashboard, sent (clickEndCall w).log = sent w.log) ∧
    (clickEndCall Examples.inCall).isInCall = false ∧
    released (clickEndCall Examples.inCall).log = [Effect.stopTracks 0, Effect.close 1] ∧
    sent (clickEndCall Examples.inCall).log = [acceptEnvelope Examples.alex] := by
  refine ⟨?_, by decide, by decide, by decide⟩
  intro w
  unfold clickEndCall
  split
  · exact sent_endCall _ _ w
  · rfl

end Dashboard

namespace VisitorCallPage

theorem offerPosted_append (a b : List Effect) :
    offerPosted (a ++ b) = (offerPosted a || offerPosted b) := by
  simp [offerPosted, List.any_append]

theorem connectedAfterOffer_of_ne (w : VisitorCallPage) (h : w.callState ≠ "connected") :
    ConnectedAfterOffer w :=
  fun hc => absurd hc h

/-- A step that keeps call state, stream and connection and only appends to the log keeps the
condition. -/
theorem connectedAfterOffer_of_same (w v : VisitorCallPage) (extra : List Effect)
    (hstate : v.callState = w.callState) (hls : v.localStream = w.localStream)
    (hpc : v.peerConnection = w.peerConnection) (hlog : v.log = w.log ++ extra)
    (h : ConnectedAfterOffer w) : ConnectedAfterOffer v := by
  intro hc
  obtain ⟨h1, h2, h3⟩ := h (hstate ▸ hc)
  refine ⟨hls ▸ h1, hpc ▸ h2, ?_⟩
  rw [hlog, offerPosted_append, h3]; rfl

theorem startCall_connectedAfterOffer (o : Outcomes) (w : VisitorCallPage) :
    ConnectedAfterOffer (startCall o w) := by
  obtain ⟨a, b, c, d, e, f, g, h, i, j, k⟩ := o
  unfold ConnectedAfterOffer startCall
  cases a <;> cases b <;> cases c <;> cases e <;> cases h <;>
    simp [offerPosted, offerEnvelope]

theorem endCall_callState (o : Outcomes) (r : Render) (w : VisitorCallPage) :
    (endCall o r w).callState = "ended" := rfl

theorem handleMessage_connectedAfterOffer (o : Outcomes) (r : Ringing) (w : VisitorCallPage)
    (msg : Envelope) (h : ConnectedAfterOffer w) :
    ConnectedAfterOffer (handleMessage o r w msg).2 := by
  unfold handleMessage
  split
  · exact startCall_connectedAfterOffer o _
  · split
    · exact connectedAfterOffer_of_ne _ (by simp [handleReject])
    · split
      · unfold handleAnswer
        cases hpc : w.peerConnection with
        | none => simpa using h
        | some pc =>
          by_cases hclosed : pc ∈ w.closed
          · simpa [hclosed] using h
          · cases hok : o.setRemoteDescription with
            | false =>
              simp only [hclosed, if_false, Bool.false_eq_true]
              exact connectedAfterOffer_of_same w _ [Effect.setRemoteDescription pc msg.payload.sdp]
                rfl rfl hpc.symm rfl h
            | true =>
              simp only [hclosed, if_false, if_true]
              exact connectedAfterOffer_of_same w _
                ([Effect.setRemoteDescription pc msg.payload.sdp] ++
                  forwardQueue pc w.iceCandidateQueue) rfl rfl hpc.symm (by simp) h
      · split
        · cases hc : msg.payload.candidate with
          | none => simpa using h
          | some c =>
            simp only []
            unfold handleCandidate
            cases hg : r.render.remoteDescSet with
            | false =>
              simp only [Bool.false_eq_true, if_false]
              exact connectedAfterOffer_of_same w _ [] rfl rfl rfl (by simp) h
            | true =>
              cases hpc : w.peerConnection with
              | none => simpa using h
              | some pc =>
                by_cases hclosed : pc ∈ w.closed
                · simpa [hclosed] using h
                · simp only [hclosed, if_false, if_true]
                  exact connectedAfterOffer_of_same w _ [Effect.addIceCandidate pc c]
                    rfl rfl hpc.symm rfl h
        · split
          · exact connectedAfterOffer_of_ne _ (by simp [handleEnd, endCall_callState])
          · exact h

theorem handleBatch_connectedAfterOffer (batch : List (Envelope × Outcomes)) (r : Ringing)
    (w : VisitorCallPage) (h : ConnectedAfterOffer w) :
    ConnectedAfterOffer (handleBatch r w batch).2 := by
  induction batch generalizing r w with
  | nil => exact h
  | cons p rest ih =>
    obtain ⟨m, o⟩ := p
    exact ih _ _ (handleMessage_connectedAfterOffer o r w m h)

theorem clickRing_connectedAfterOffer (o : Outcomes) (w : VisitorCallPage)
    (h : ConnectedAfterOffer w) : ConnectedAfterOffer (clickRing o w).1 := by
  unfold clickRing
  split
  · unfold ringDoorbell
    split
    · exact h
    · split
      · split
        · exact connectedAfterOffer_of_same w _ [Effect.send (ringEnvelope w)] rfl rfl rfl rfl h
        · exact connectedAfterOffer_of_same w _ [Effect.send (ringEnvelope w)] rfl rfl rfl rfl h
      · exact connectedAfterOffer_of_ne _ (by simp)
  · exact h

theorem step_page_clickRing (s : Session) (o : Outcomes) :
    (s.step (Event.clickRing o)).page = (clickRing o s.page).1 := by
  rcases hres : clickRing o s.page with ⟨w, _ | r⟩ <;> simp [Session.step, hres]

/-- Every event keeps the condition `ConnectedAfterOffer`. -/
theorem step_connectedAfterOffer (s : Session) (e : Event) (h : ConnectedAfterOffer s.page) :
    ConnectedAfterOffer (s.step e).page := by
  cases e with
  | typeName name =>
    simp only [Session.step]
    split
    · exact connectedAfterOffer_of_same s.page _ [] rfl rfl rfl (by simp [typeName]) h
    · exact h
  | clickRing o =>
    rw [step_page_clickRing]
    exact clickRing_connectedAfterOffer o s.page h
  | poll k batch =>
    simp only [Session.step]
    cases s.attempts[k]? with
    | none => exact h
    | some r =>
      simp only []
      split
      · exact handleBatch_connectedAfterOffer batch r s.page h
      · exact h
  | timeout k =>
    simp only [Session.step]
    cases s.attempts[k]? with
    | none => exact h
    | some r =>
      simp only [responseTimeout]
      split
      · exact connectedAfterOffer_of_ne _ (by simp)
      · exact h
  | clickCancel =>
    simp only [Session.step, clickCancel]
    split
    · exact connectedAfterOffer_of_ne _ (by simp)
    · exact h
  | clickTryAgain =>
    simp only [Session.step, clickTryAgain]
    split
    · exact connectedAfterOffer_of_ne _ (by simp)
    · exact h
  | clickRingAgain =>
    simp only [Session.step, clickRingAgain]
    split
    · exact connectedAfterOffer_of_ne _ (by simp)
    · exact h
  | clickEndCall o =>
    simp only [Session.step, clickEndCall]
    split
    · exact connectedAfterOffer_of_ne _ (by simp [endCall_callState])
    · exact h
  | onTrack stream =>
    exact connectedAfterOffer_of_same s.page _ [] rfl rfl rfl (by simp [Session.step, onTrack]) h
  | onIceCandidate c =>
    cases c with
    | none => exact h
    | some c =>
      exact connectedAfterOffer_of_same s.page _ [Effect.send (candidateEnvelope s.page c)]
        rfl rfl rfl rfl h
  | clock ms =>
    exact connectedAfterOffer_of_same s.page _ [] rfl rfl rfl (by simp [Session.step]) h

theorem run_connectedAfterOffer (events : List Event) (s : Session)
    (h : ConnectedAfterOffer s.page) : ConnectedAfterOffer (s.run events).page := by
  induction events generalizing s with
  | nil => exact h
  | cons e rest ih => exact ih (s.step e) (step_connectedAfterOffer s e h)

/-- The claim of C12 fails right after the offer: after Alex rang and the owner's `accept` was
handled, the call state is "connected" although no remote stream has been observed and no
answer has been applied. -/
theorem connected_before_answer_and_remote_stream :
    Examples.called = Session.run (Session.start "owner-1") Examples.callEvents ∧
    Examples.called.page.callState = "connected" ∧
    Examples.called.page.remoteStream = none ∧
    Examples.called.page.remoteDescSet = false ∧
    sent Examples.called.page.log
      = [ringEnvelope Examples.page, offerEnvelope Examples.page] := by
  decide

/-- C12 as amended. The visitor is connected once the offer is posted: in every state reached
from the first render by any sequence of events, the call state is "connected" only if
`startCall` has run to its end, that is a local stream and a connection are held in the state
and an offer has been posted; neither an answer nor a remote stream is needed. -/
theorem connected_only_after_offer (userId : String) (events : List Event)
    (hconnected : ((Session.start userId).run events).page.callState = "connected") :
    ((Session.start userId).run events).page.localStream.isSome = true ∧
    ((Session.start userId).run events).page.peerConnection.isSome = true ∧
    offerPosted ((Session.start userId).run events).page.log = true :=
  run_connectedAfterOffer events (Session.start userId)
    (connectedAfterOffer_of_ne _ (by simp [Session.start, initial])) hconnected

theorem connected_only_after_offer_witness :
    ((Session.start "owner-1").run Examples.callEvents).page.callState = "connected" ∧
    (((Session.start "owner-1").run Examples.callEvents).page.localStream.isSome = true ∧
    ((Session.start "owner-1").run Examples.callEvents).page.peerConnection.isSome = true ∧
    offerPosted ((Session.start "owner-1").run Examples.callEvents).page.log = true) :=
  ⟨by decide, connected_only_after_offer "owner-1" Examples.callEvents (by decide)⟩

/-- The log written by `endCall`: what `notifyEnd` posts, then the `stop` of the captured stream
and the `close` of the captured connection, if any. -/
theorem endCall_log (o : Outcomes) (r : Render) (w : VisitorCallPage) :
    (endCall o r w).log = (notifyEnd o r w).log ++ r.localStream.toList.map Effect.stopTracks ++
      r.peerConnection.toList.map Effect.close := by
  have hclear : ∀ v : VisitorCallPage, (clearPolling v).log = v.log := by
    intro v; unfold clearPolling; cases v.pollingIntervalRef <;> rfl
  simp only [endCall, hclear]
  cases r.localStream <;> cases r.peerConnection <;>
    simp [stopLocalStream, closePeerConnection]

/-- What `notifyEnd` writes when the captured call id is a non-empty string and the end-call
request resolves. -/
theorem notifyEnd_log (o : Outcomes) (r : Render) (w : VisitorCallPage) (id : String)
    (hid : r.callId = some id) (hne : id ≠ "") (hok : o.endCallRequest = true) :
    (notifyEnd o r w).log = w.log ++ [Effect.endCallRequest id (duration r.callStartTime w.now),
      Effect.send (endEnvelope w (some id))] := by
  simp [notifyEnd, hid, hne, hok]

/-- The claim of C16 fails on every end envelope: when Alex presses "End Call" 65.5 seconds into
the call, the end-call request carries 65 seconds and the `end` envelope posted after it has
the call id as its whole payload, without any duration. -/
theorem end_envelope_without_duration :
    persisted (clickEndCall Outcomes.success Examples.talking).log = [("call-1", 65)] ∧
    sent (clickEndCall Outcomes.success Examples.talking).log
      = [ringEnvelope Examples.page, offerEnvelope Examples.page,
         endEnvelope Examples.talking (some "call-1")] ∧
    (endEnvelope Examples.talking (some "call-1")).payload.duration_seconds = none ∧
    (endEnvelope Examples.talking (some "call-1")).payload = { call_id := some "call-1" } := by
  decide

/-- C16 as amended. The visitor's `end` envelope carries the call id only: when `endCall` runs
with a call id and the end-call request resolves, the duration in seconds is passed to the
end-call request, and the one envelope posted is an `end` for the room whose payload is the call
id alone, with no duration. -/
theorem end_envelope_carries_call_id_only (o : Outcomes) (r : Render) (w : VisitorCallPage)
    (id : String) (hid : r.callId = some id) (hne : id ≠ "") (hok : o.endCallRequest = true) :
    persisted (endCall o r w).log
      = persisted w.log ++ [(id, duration r.callStartTime w.now)] ∧
    sent (endCall o r w).log = sent w.log ++
      [{ room_id := w.userId, sender_type := "visitor", message_type := "end",
         payload := { call_id := some id } }] ∧
    ∀ env ∈ sent (endCall o r w).log, env ∉ sent w.log → env.payload.duration_seconds = none := by
  have hsent : sent (endCall o r w).log = sent w.log ++
      [{ room_id := w.userId, sender_type := "visitor", message_type := "end",
         payload := { call_id := some id } }] := by
    rw [endCall_log, notifyEnd_log o r w id hid hne hok]
    cases r.localStream <;> cases r.peerConnection <;> simp [sent_append, sent, endEnvelope]
  refine ⟨?_, hsent, ?_⟩
  · rw [endCall_log, notifyEnd_log o r w id hid hne hok]
    cases r.localStream <;> cases r.peerConnection <;> simp [persisted_append, persisted]
  · intro env henv hnew
    rw [hsent, List.mem_append] at henv
    rcases henv with h | h
    · exact absurd h hnew
    · simp only [List.mem_singleton] at h
      rw [h]

theorem end_envelope_carries_call_id_only_witness :
    (render Examples.talking).callId = some "call-1" ∧ "call-1" ≠ "" ∧
    Outcomes.success.endCallRequest = true ∧
    (persisted (endCall Outcomes.success (render Examples.talking) Examples.talking).log
      = persisted Examples.talking.log ++
        [("call-1", duration (render Examples.talking).callStartTime Examples.talking.now)] ∧
    sent (endCall Outcomes.success (render Examples.talking) Examples.talking).log
      = sent Examples.talking.log ++
        [{ room_id := Examples.talking.userId, sender_type := "visitor", message_type := "end",
           payload := { call_id := some "call-1" } }] ∧
    ∀ env ∈ sent (endCall Outcomes.success (render Examples.talking) Examples.talking).log,
      env ∉ sent Examples.talking.log → env.payload.duration_seconds = none) :=
  ⟨by decide, by decide, rfl,
    end_envelope_carries_call_id_only Outcomes.success (render Examples.talking) Examples.talking
      "call-1" (by decide) (by decide) rfl⟩

/-- C17. Call duration arithmetic: the duration `endCall` computes and passes to the end-call
request is 0 when no start time is recorded, and for a recorded start time (a positive
`Date.now()` value) it is the floor of `(now - start) / 1000`; when `now` is not before `start`
it is a non-negative `d` with `1000 * d ≤ now - start < 1000 * (d + 1)`. -/
theorem duration_is_floor_of_elapsed_seconds (start now : Nat) (hstart : 0 < start) :
    (∀ (o : Outcomes) (r : Render) (w : VisitorCallPage),
      persisted (notifyEnd { o with endCallRequest := true } { r with callId := some "call-1" }
        w).log = persisted w.log ++ [("call-1", duration r.callStartTime w.now)]) ∧
    duration none now = 0 ∧
    duration (some start) now = ⌊((now : ℚ) - (start : ℚ)) / 1000⌋ ∧
    (start ≤ now →
      0 ≤ duration (some start) now ∧
      1000 * duration (some start) now ≤ (now : Int) - (start : Int) ∧
      (now : Int) - (start : Int) < 1000 * (duration (some start) now + 1)) := by
  have hne : start ≠ 0 := Nat.pos_iff_ne_zero.mp hstart
  refine ⟨?_, rfl, ?_, ?_⟩
  · intro o r w
    simp [notifyEnd, persisted_append, persisted]
  · have hcast : ((now : ℚ) - (start : ℚ)) / 1000
        = (((now : Int) - (start : Int) : Int) : ℚ) / ((1000 : Nat) : ℚ) := by
      push_cast; ring
    rw [hcast, Rat.floor_intCast_div_natCast]
    simp [duration, hne]
  · intro hle
    simp only [duration, hne, if_false]
    omega

theorem duration_is_floor_of_elapsed_seconds_witness :
    0 < 1700000000000 ∧
    ((∀ (o : Outcomes) (r : Render) (w : VisitorCallPage),
      persisted (notifyEnd { o with endCallRequest := true } { r with callId := some "call-1" }
        w).log = persisted w.log ++ [("call-1", duration r.callStartTime w.now)]) ∧
    duration none 1700000065500 = 0 ∧
    duration (some 1700000000000) 1700000065500
      = ⌊(((1700000065500 : Nat) : ℚ) - ((1700000000000 : Nat) : ℚ)) / 1000⌋ ∧
    (1700000000000 ≤ 1700000065500 →
      0 ≤ duration (some 1700000000000) 1700000065500 ∧
      1000 * duration (some 1700000000000) 1700000065500
        ≤ ((1700000065500 : Nat) : Int) - ((1700000000000 : Nat) : Int) ∧
      ((1700000065500 : Nat) : Int) - ((1700000000000 : Nat) : Int)
        < 1000 * (duration (some 1700000000000) 1700000065500 + 1))) :=
  ⟨by decide, duration_is_floor_of_elapsed_seconds 1700000000000 1700000065500 (by decide)⟩

/-- C18. Teardown invoked twice: `endCall` has no guard of its own and never clears `callId`.
When the `endCall` of the connected page of Alex runs twice in succession, the second run
posts the end-call request and the `end` envelope again and stops the tracks and closes the
connection again; an `endCall` created after the re-render releases nothing but still repeats
the request and the envelope.  The owner's `endCall` created after the re-render changes
nothing. -/
theorem visitor_endCall_twice_repeats_effects :
    persisted (endCall Outcomes.success (render Examples.talking) Examples.talking).log
      = [("call-1", 65)] ∧
    released (endCall Outcomes.success (render Examples.talking) Examples.talking).log
      = [Effect.stopTracks 1, Effect.close 2] ∧
    persisted (endCall Outcomes.success (render Examples.talking)
      (endCall Outcomes.success (render Examples.talking) Examples.talking)).log
      = [("call-1", 65), ("call-1", 65)] ∧
    sent (endCall Outcomes.success (render Examples.talking)
      (endCall Outcomes.success (render Examples.talking) Examples.talking)).log
      = [ringEnvelope Examples.page, offerEnvelope Examples.page,
         endEnvelope Examples.talking (some "call-1"),
         endEnvelope Examples.talking (some "call-1")] ∧
    released (endCall Outcomes.success (render Examples.talking)
      (endCall Outcomes.success (render Examples.talking) Examples.talking)).log
      = [Effect.stopTracks 1, Effect.close 2, Effect.stopTracks 1, Effect.close 2] ∧
    persisted (endCall Outcomes.success
      (render (endCall Outcomes.success (render Examples.talking) Examples.talking))
      (endCall Outcomes.success (render Examples.talking) Examples.talking)).log
      = [("call-1", 65), ("call-1", 65)] ∧
    released (endCall Outcomes.success
      (render (endCall Outcomes.success (render Examples.talking) Examples.talking))
      (endCall Outcomes.success (render Examples.talking) Examples.talking)).log
      = [Effect.stopTracks 1, Effect.close 2] ∧
    ∀ w : Dashboard,
      Dashboard.endCall (Dashboard.endCall w.localStream w.peerConnection w).localStream
        (Dashboard.endCall w.localStream w.peerConnection w).peerConnection
        (Dashboard.endCall w.localStream w.peerConnection w)
      = Dashboard.endCall w.localStream w.peerConnection w := by
  refine ⟨by decide, by decide, by decide, by decide, by decide, by decide, by decide, ?_⟩
  intro w
  cases hls : w.localStream <;> cases hpc : w.peerConnection <;>
    cases href : w.offerPollingRef <;>
    simp [Dashboard.endCall, Dashboard.stopLocalStream, Dashboard.closePeerConnection,
      Dashboard.clearOfferPolling, hls, hpc, href]

/-- C19. Setup errors release nothing: neither `startCall` nor `acceptCall` ever stops a track
or closes a connection.  When `createOffer` rejects after the visitor acquired stream 1 and
created connection 2, the call state becomes "ended" with the stream still held and the
connection never closed; when the post of `accept` rejects after the owner acquired stream 0
and created connection 1, the owner leaves the call with both still held. -/
theorem setup_failure_releases_nothing :
    (∀ (o : Outcomes) (w : VisitorCallPage), released (startCall o w).log = released w.log) ∧
    (∀ (o : Outcomes) (w : Dashboard),
      released (Dashboard.acceptCall o w).1.log = released w.log) ∧
    (handleMessage Examples.createOfferFails Examples.ring Examples.ringing
      Examples.accept).2.callState = "ended" ∧
    (handleMessage Examples.createOfferFails Examples.ring Examples.ringing
      Examples.accept).2.log = Examples.ringing.log ++
        [Effect.getUserMedia 1, Effect.newPeerConnection 2] ∧
    (handleMessage Examples.createOfferFails Examples.ring Examples.ringing
      Examples.accept).2.localStream = some 1 ∧
    (handleMessage Examples.createOfferFails Examples.ring Examples.ringing
      Examples.accept).2.closed = [] ∧
    (Dashboard.acceptCall Examples.sendFails Examples.incoming).2 = none ∧
    (Dashboard.acceptCall Examples.sendFails Examples.incoming).1.isInCall = false ∧
    (Dashboard.acceptCall Examples.sendFails Examples.incoming).1.localStream = some 0 ∧
    (Dashboard.acceptCall Examples.sendFails Examples.incoming).1.peerConnection = some 1 ∧
    (Dashboard.acceptCall Examples.sendFails Examples.incoming).1.log
      = [Effect.getUserMedia 0, Effect.newPeerConnection 1,
         Effect.send (Dashboard.acceptEnvelope Examples.alex)] := by
  refine ⟨?_, ?_, by decide, by decide, by decide, by decide, by decide, by decide, by decide,
    by decide, by decide⟩
  · intro o w
    obtain ⟨a, b, c, d, e, f, g, h, i, j, k⟩ := o
    unfold startCall
    cases a <;> cases b <;> cases c <;> cases e <;> cases h <;>
      simp [released_append, released]
  · intro o w
    obtain ⟨a, b, c, d, e, f, g, h, i, j, k⟩ := o
    unfold Dashboard.acceptCall
    cases w.incomingCall with
    | none => rfl
    | some ic =>
      cases a <;> cases b <;> cases h <;> simp [released_append, released]

/-- C20. Peer notification depends on the end-call request: both posts are in one `try`, the
`end` envelope after the request.  When the request rejects, `endCall` posts no envelope at
all, whatever the state; when Alex presses "End Call" and the request rejects, the tracks are
stopped and the connection closed but the only envelopes ever sent are the ring and the
offer. -/
theorem end_envelope_skipped_when_request_fails :
    (∀ (o : Outcomes) (r : Render) (w : VisitorCallPage),
      sent (endCall { o with endCallRequest := false } r w).log = sent w.log) ∧
    (clickEndCall Examples.endCallRequestFails Examples.talking).callState = "ended" ∧
    persisted (clickEndCall Examples.endCallRequestFails Examples.talking).log
      = [("call-1", 65)] ∧
    released (clickEndCall Examples.endCallRequestFails Examples.talking).log
      = [Effect.stopTracks 1, Effect.close 2] ∧
    sent (clickEndCall Examples.endCallRequestFails Examples.talking).log
      = [ringEnvelope Examples.page, offerEnvelope Examples.page] := by
  refine ⟨?_, by decide, by decide, by decide, by decide⟩
  intro o r w
  have hnotify : sent (notifyEnd { o with endCallRequest := false } r w).log = sent w.log := by
    unfold notifyEnd
    cases r.callId with
    | none => rfl
    | some id =>
      by_cases hid : id = "" <;> simp [hid, sent_append, sent]
  rw [endCall_log, sent_append, sent_append, hnotify]
  cases r.localStream <;> cases r.peerConnection <;> simp [sent]

end VisitorCallPage

/-! ## Second attempts, terminal states and the timer -/

namespace VisitorCallPage

/-- C21. A second ring is not a clean start: `endCall` never clears `callStartTime`, and the
closures of the new `ringDoorbell` keep the `callId` and `callStartTime` of the render in which
it ran.  After a first call of 65.5 seconds ended with "End Call", Alex rings again: the page
still holds the start time of the first call, and when an `end` arrives 10 seconds later,
before any accept, the end-call request is posted for the first call with a duration of 75
seconds instead of 0. -/
theorem second_ring_keeps_start_time :
    ((Session.start "owner-1").run Examples.secondRingEvents).page.callState = "ringing" ∧
    ((Session.start "owner-1").run Examples.secondRingEvents).page.callId = some "call-2" ∧
    ((Session.start "owner-1").run Examples.secondRingEvents).page.callStartTime
      = some 1700000000000 ∧
    ((Session.start "owner-1").run Examples.secondRingEvents).attempts[1]?
      = some { render := { callState := "idle", remoteDescSet := false, callId := some "call-1",
                           callStartTime := some 1700000000000, localStream := none,
                           peerConnection := none },
               interval := 3, callAccepted := false } ∧
    persisted ((Session.start "owner-1").run Examples.secondRingEvents).page.log
      = [("call-1", 65)] ∧
    ((Session.start "owner-1").run (Examples.secondRingEvents ++
      [Event.clock 10000, Event.poll 1 [(Examples.endOfSecondCall, Outcomes.success)]])
      ).page.callState = "ended" ∧
    persisted ((Session.start "owner-1").run (Examples.secondRingEvents ++
      [Event.clock 10000, Event.poll 1 [(Examples.endOfSecondCall, Outcomes.success)]])
      ).page.log = [("call-1", 65), ("call-1", 75)] := by
  decide

/-- C22. Terminal states are not terminal for the interval callback: the `catch` of `startCall`
sets the call state to "ended" without clearing the interval, and no branch of the callback
looks at the call state.  After `getUserMedia` rejected (state "ended", interval 0 still
running) the next poll delivers a `reject` and the state becomes "rejected"; and when one
batch holds a `reject` followed by an `accept`, the `accept` is handled after the state became
"rejected": media is acquired and the state becomes "connected". -/
theorem terminal_state_left_by_later_envelope :
    ((Session.start "owner-1").run Examples.failedStartEvents).page.callState = "ended" ∧
    ((Session.start "owner-1").run Examples.failedStartEvents).page.intervals = [0] ∧
    ((Session.start "owner-1").run Examples.failedStartEvents).page.pollingIntervalRef
      = some 0 ∧
    ((Session.start "owner-1").run (Examples.failedStartEvents ++
      [Event.poll 0 [(Examples.reject, Outcomes.success)]])).page.callState = "rejected" ∧
    (handleBatch Examples.ring Examples.ringing
      [(Examples.reject, Outcomes.success)]).2.callState = "rejected" ∧
    (handleBatch Examples.ring Examples.ringing
      [(Examples.reject, Outcomes.success), (Examples.accept, Outcomes.success)]).2.callState
        = "connected" ∧
    acquired (handleBatch Examples.ring Examples.ringing
      [(Examples.reject, Outcomes.success), (Examples.accept, Outcomes.success)]).2.log
        = [Effect.getUserMedia 1, Effect.newPeerConnection 2] := by
  decide

/-- C23. Cancel does not stop the poll loop: the "Cancel" button only sets the call state to
"idle"; in every state the running intervals and `pollingIntervalRef` are what they were.
After Alex rang and cancelled, interval 0 is still running, and the `accept` its next tick
delivers starts the call. -/
theorem cancel_leaves_interval_running :
    (∀ w : VisitorCallPage, (clickCancel w).intervals = w.intervals ∧
      (clickCancel w).pollingIntervalRef = w.pollingIntervalRef) ∧
    ((Session.start "owner-1").run Examples.cancelEvents).page.callState = "idle" ∧
    ((Session.start "owner-1").run Examples.cancelEvents).page.intervals = [0] ∧
    ((Session.start "owner-1").run Examples.cancelEvents).page.pollingIntervalRef = some 0 ∧
    ((Session.start "owner-1").run (Examples.cancelEvents ++
      [Event.poll 0 (allSucceed [Examples.accept])])).page.callState = "connected" ∧
    acquired ((Session.start "owner-1").run (Examples.cancelEvents ++
      [Event.poll 0 (allSucceed [Examples.accept])])).page.log
        = [Effect.getUserMedia 1, Effect.newPeerConnection 2] := by
  refine ⟨?_, by decide, by decide, by decide, by decide, by decide⟩
  intro w
  unfold clickCancel
  split <;> exact ⟨rfl, rfl⟩

/-- C24. Malformed candidate messages are dropped harmlessly: an `ice-candidate` envelope whose
payload has no candidate is handled without any change, by the owner's interval callback
(closure locals with gate and queue, state and log unchanged, no exception) and by the
visitor's (closure locals, call state, gate, queue and log unchanged), and the rest of the batch
is handled as if the envelope had not been there. -/
theorem candidate_without_payload_is_skipped (o : Outcomes) (msg : Envelope)
    (hkind : msg.message_type = "ice-candidate") (hnone : msg.payload.candidate = none) :
    (∀ (n : Dashboard.Negotiation) (w : Dashboard) (rest : List (Envelope × Outcomes)),
      Dashboard.handleMessage o n w msg = { closure := n, page := w, threw := false } ∧
      Dashboard.handleBatch n w ((msg, o) :: rest) = Dashboard.handleBatch n w rest) ∧
    (∀ (r : Ringing) (w : VisitorCallPage) (rest : List (Envelope × Outcomes)),
      handleMessage o r w msg = (r, w) ∧
      handleBatch r w ((msg, o) :: rest) = handleBatch r w rest) := by
  constructor
  · intro n w rest
    have h : Dashboard.handleMessage o n w msg = { closure := n, page := w, threw := false } := by
      simp [Dashboard.handleMessage, hkind, hnone]
    exact ⟨h, by simp [Dashboard.handleBatch, h]⟩
  · intro r w rest
    have h : handleMessage o r w msg = (r, w) := by
      simp [handleMessage, hkind, hnone]
    exact ⟨h, by simp [handleBatch, h]⟩

theorem candidate_without_payload_is_skipped_witness :
    Examples.emptyCandidate.message_type = "ice-candidate" ∧
    Examples.emptyCandidate.payload.candidate = none ∧
    ((∀ (n : Dashboard.Negotiation) (w : Dashboard) (rest : List (Envelope × Outcomes)),
      Dashboard.handleMessage Outcomes.success n w Examples.emptyCandidate
        = { closure := n, page := w, threw := false } ∧
      Dashboard.handleBatch n w ((Examples.emptyCandidate, Outcomes.success) :: rest)
        = Dashboard.handleBatch n w rest) ∧
    (∀ (r : Ringing) (w : VisitorCallPage) (rest : List (Envelope × Outcomes)),
      handleMessage Outcomes.success r w Examples.emptyCandidate = (r, w) ∧
      handleBatch r w ((Examples.emptyCandidate, Outcomes.success) :: rest)
        = handleBatch r w rest)) :=
  ⟨rfl, rfl, candidate_without_payload_is_skipped Outcomes.success Examples.emptyCandidate rfl rfl⟩

theorem handleMessage_render (o : Outcomes) (r : Ringing) (w : VisitorCallPage) (msg : Envelope) :
    (handleMessage o r w msg).1.render = r.render := by
  unfold handleMessage
  split
  · rfl
  · split
    · rfl
    · split
      · unfold handleAnswer
        cases w.peerConnection with
        | none => rfl
        | some pc =>
          by_cases hclosed : pc ∈ w.closed
          · simp [hclosed]
          · cases hok : o.setRemoteDescription <;> simp [hclosed]
      · split
        · cases msg.payload.candidate with
          | none => rfl
          | some c =>
            simp only [handleCandidate]
            cases r.render.remoteDescSet with
            | false => rfl
            | true =>
              cases w.peerConnection with
              | none => rfl
              | some pc =>
                by_cases hclosed : pc ∈ w.closed <;> simp [hclosed]
        · split <;> rfl

theorem handleBatch_render (batch : List (Envelope × Outcomes)) (r : Ringing)
    (w : VisitorCallPage) : (handleBatch r w batch).1.render = r.render := by
  induction batch generalizing r w with
  | nil => rfl
  | cons p rest ih =>
    obtain ⟨m, o⟩ := p
    simp only [handleBatch]
    rw [ih, handleMessage_render]

/-- Every `ringDoorbell` closure of a session was created on the idle page. -/
theorem step_attempts_idle (s : Session) (e : Event)
    (h : ∀ r ∈ s.attempts, r.render.callState = "idle") :
    ∀ r ∈ (s.step e).attempts, r.render.callState = "idle" := by
  cases e with
  | clickRing o =>
    intro r hr
    rcases hres : clickRing o s.page with ⟨w, _ | r0⟩
    · simp only [Session.step, hres] at hr
      exact h r hr
    · simp only [Session.step, hres, List.mem_append, List.mem_singleton] at hr
      rcases hr with hr | hr
      · exact h r hr
      · obtain ⟨hidle, hrender, _⟩ := clickRing_started o s.page w r0 hres
        rw [hr, hrender]
        exact hidle
  | poll k batch =>
    intro r hr
    simp only [Session.step] at hr
    cases hk : s.attempts[k]? with
    | none =>
      simp only [hk] at hr
      exact h r hr
    | some r0 =>
      simp only [hk] at hr
      by_cases hrun : r0.interval ∈ s.page.intervals
      · simp only [hrun, if_true] at hr
        rcases List.mem_or_eq_of_mem_set hr with hr | hr
        · exact h r hr
        · rw [hr, handleBatch_render]
          exact h r0 (List.getElem?_mem hk)
      · simp only [hrun, if_false] at hr
        exact h r hr
  | typeName name =>
    intro r hr
    simp only [Session.step] at hr
    split at hr <;> exact h r hr
  | timeout k =>
    intro r hr
    simp only [Session.step] at hr
    split at hr <;> exact h r hr
  | clickCancel => exact h
  | clickTryAgain => exact h
  | clickRingAgain => exact h
  | clickEndCall o => exact h
  | onTrack stream => exact h
  | onIceCandidate c => exact h
  | clock ms => exact h

theorem run_attempts_idle (events : List Event) (s : Session)
    (h : ∀ r ∈ s.attempts, r.render.callState = "idle") :
    ∀ r ∈ (s.run events).attempts, r.render.callState = "idle" := by
  induction events generalizing s with
  | nil => exact h
  | cons e rest ih => exact ih (s.step e) (step_attempts_idle s e h)

/-- C26. The response timer cannot disturb a call: a ring can only be started from the idle
page, so the `callState` every timer callback tests is "idle".  In every state reached from
the first render by any sequence of events, the firing of the timer of any ring made so far
leaves the page (call state, intervals, `pollingIntervalRef`, everything) and the closures
unchanged. -/
theorem timer_changes_nothing (userId : String) (events : List Event) (k : Nat) :
    ((Session.start userId).run events).step (Event.timeout k)
      = (Session.start userId).run events := by
  have hidle := run_attempts_idle events (Session.start userId)
    (by simp [Session.start])
  simp only [Session.step]
  cases hk : ((Session.start userId).run events).attempts[k]? with
  | none => rfl
  | some r =>
    have hr := hidle r (List.getElem?_mem hk)
    simp [responseTimeout, hr]

end VisitorCallPage

namespace Dashboard

/-- C27. No second call while negotiating: a `ring` handled by the negotiation interval
callback changes nothing (closure locals with gate and queue, state with `incomingCall`, and
log are unchanged, so nothing is forwarded), and while `isInCall` holds the incoming-call
poll does not run: its guard fails and a tick leaves the dashboard unchanged whatever it
would deliver. -/
theorem ring_ignored_while_in_call (o : Outcomes) (n : Negotiation) (w : Dashboard)
    (msg : Envelope) (hkind : msg.message_type = "ring") (hcall : w.isInCall = true) :
    handleMessage o n w msg = { closure := n, page := w, threw := false } ∧
    pollsForCalls w = false ∧
    ∀ msgs : List Envelope, pollTick w msgs = w := by
  have hguard : pollsForCalls w = false := by simp [pollsForCalls, hcall]
  refine ⟨by simp [handleMessage, hkind], hguard, ?_⟩
  intro msgs
  simp [pollTick, hguard]

theorem ring_ignored_while_in_call_witness :
    (visitorRing "owner-1" "Sam" "call-2").message_type = "ring" ∧
    Examples.inCall.isInCall = true ∧
    (handleMessage Outcomes.success Examples.negotiation Examples.inCall
        (visitorRing "owner-1" "Sam" "call-2")
      = { closure := Examples.negotiation, page := Examples.inCall, threw := false } ∧
    pollsForCalls Examples.inCall = false ∧
    ∀ msgs : List Envelope, pollTick Examples.inCall msgs = Examples.inCall) :=
  ⟨rfl, rfl, ring_ignored_while_in_call Outcomes.success Examples.negotiation Examples.inCall
    (visitorRing "owner-1" "Sam" "call-2") rfl rfl⟩

end Dashboard

namespace VisitorCallPage

/-- C29. A ring needs a name.  When every character of the name is white space for `trim` (the
empty name included), `ringDoorbell` returns without any change: nothing is posted, no
interval and no timer closure is created, and the idle page stays idle.  When the name has a
character that `trim` keeps and the relay accepts the post, exactly one envelope is posted, a
`ring` for the room carrying the name as typed, the call id becomes the message id of the
response, the call state becomes "ringing" and the interval is started. -/
theorem ring_needs_a_name (o : Outcomes) (blank named : VisitorCallPage)
    (hidle : blank.callState = "idle")
    (hblank : ∀ c ∈ blank.visitorName.toList, isTrimmed c = true)
    (hnamed : ∃ c ∈ named.visitorName.toList, isTrimmed c = false)
    (hsend : o.send = true) :
    (ringDoorbell o blank = (blank, none) ∧ (ringDoorbell o blank).1.callState = "idle") ∧
    (ringDoorbell o named).1.log = named.log ++
      [Effect.send { room_id := named.userId, sender_type := "visitor", message_type := "ring",
                     payload := { visitor_name := some named.visitorName } }] ∧
    (ringDoorbell o named).1.callId = o.message_id ∧
    (ringDoorbell o named).1.callState = "ringing" ∧
    (ringDoorbell o named).1.pollingIntervalRef = some named.nextId ∧
    (ringDoorbell o named).1.intervals = named.nextId :: named.intervals ∧
    (ringDoorbell o named).2
      = some { render := render named, interval := named.nextId, callAccepted := false } := by
  have h1 : trimIsEmpty blank.visitorName = true := by
    simpa [trimIsEmpty, List.all_eq_true] using hblank
  have h2 : trimIsEmpty named.visitorName = false := by
    obtain ⟨c, hc, hk⟩ := hnamed
    cases h : trimIsEmpty named.visitorName with
    | false => rfl
    | true =>
      have hall : ∀ x ∈ named.visitorName.toList, isTrimmed x = true := by
        simpa [trimIsEmpty, List.all_eq_true] using h
      rw [hall c hc] at hk
      exact absurd hk (by decide)
  have hb : ringDoorbell o blank = (blank, none) := by simp [ringDoorbell, h1]
  refine ⟨⟨hb, by rw [hb]; exact hidle⟩, ?_⟩
  simp [ringDoorbell, h2, hsend, ringEnvelope]

theorem ring_needs_a_name_witness :
    Examples.blankPage.callState = "idle" ∧
    (∀ c ∈ Examples.blankPage.visitorName.toList, isTrimmed c = true) ∧
    (∃ c ∈ Examples.page.visitorName.toList, isTrimmed c = false) ∧
    Examples.relayAccepts.send = true ∧
    ((ringDoorbell Examples.relayAccepts Examples.blankPage = (Examples.blankPage, none) ∧
      (ringDoorbell Examples.relayAccepts Examples.blankPage).1.callState = "idle") ∧
    (ringDoorbell Examples.relayAccepts Examples.page).1.log = Examples.page.log ++
      [Effect.send { room_id := Examples.page.userId, sender_type := "visitor",
                     message_type := "ring",
                     payload := { visitor_name := some Examples.page.visitorName } }] ∧
    (ringDoorbell Examples.relayAccepts Examples.page).1.callId
      = Examples.relayAccepts.message_id ∧
    (ringDoorbell Examples.relayAccepts Examples.page).1.callState = "ringing" ∧
    (ringDoorbell Examples.relayAccepts Examples.page).1.pollingIntervalRef
      = some Examples.page.nextId ∧
    (ringDoorbell Examples.relayAccepts Examples.page).1.intervals
      = Examples.page.nextId :: Examples.page.intervals ∧
    (ringDoorbell Examples.relayAccepts Examples.page).2
      = some { render := render Examples.page, interval := Examples.page.nextId,
               callAccepted := false }) :=
  ⟨rfl, by decide, by decide, rfl,
    ring_needs_a_name Examples.relayAccepts Examples.blankPage Examples.page rfl (by decide)
      (by decide) rfl⟩

/-- The claim of C25 fails for what the visitor sends during the call: in the call of Alex the
page holds call id "call-1", but the `offer` that `startCall` posted has no call id in its
payload, and neither has the `ice-candidate` envelope posted for a local candidate. -/
theorem offer_and_candidates_without_call_id :
    Examples.called.page.callId = some "call-1" ∧
    sent Examples.called.page.log
      = [ringEnvelope Examples.page, offerEnvelope Examples.page] ∧
    (offerEnvelope Examples.page).message_type = "offer" ∧
    (offerEnvelope Examples.page).payload.call_id = none ∧
    sent (onIceCandidate (some Examples.c1) Examples.called.page).log
      = [ringEnvelope Examples.page, offerEnvelope Examples.page,
         candidateEnvelope Examples.page Examples.c1] ∧
    (candidateEnvelope Examples.page Examples.c1).payload.call_id = none := by
  decide

/-- C25 as amended. The call id is carried by what the owner sends and by the visitor's `end`:
every envelope posted by `acceptCall`, `rejectCall`, the owner's negotiation callback and the
owner's `onicecandidate` handler carries the call id of the incoming call it belongs to; the
`end` envelope posted by the visitor's `endCall` carries the call id that `endCall` holds; the
visitor's `offer` and `ice-candidate` envelopes carry no call id. -/
theorem call_id_on_owner_envelopes_and_visitor_end :
    (∀ (o : Outcomes) (w : Dashboard), ∃ new,
      sent (Dashboard.acceptCall o w).1.log = sent w.log ++ new ∧
      ∀ env ∈ new, env.message_type = "accept" ∧
        ∃ ic, w.incomingCall = some ic ∧ env.payload.call_id = ic.callId) ∧
    (∀ w : Dashboard, ∃ new,
      sent (Dashboard.rejectCall w).log = sent w.log ++ new ∧
      ∀ env ∈ new, env.message_type = "reject" ∧
        ∃ ic, w.incomingCall = some ic ∧ env.payload.call_id = ic.callId) ∧
    (∀ (o : Outcomes) (n : Dashboard.Negotiation) (w : Dashboard) (msg : Envelope), ∃ new,
      sent (Dashboard.handleMessage o n w msg).page.log = sent w.log ++ new ∧
      ∀ env ∈ new, env.message_type = "answer" ∧
        env.payload.call_id = n.incomingCall.callId) ∧
    (∀ (n : Dashboard.Negotiation) (c : Option IceCandidate) (w : Dashboard), ∃ new,
      sent (Dashboard.onIceCandidate n c w).log = sent w.log ++ new ∧
      ∀ env ∈ new, env.message_type = "ice-candidate" ∧
        env.payload.call_id = n.incomingCall.callId) ∧
    (∀ (o : Outcomes) (r : Render) (w : VisitorCallPage), ∃ new,
      sent (endCall o r w).log = sent w.log ++ new ∧
      ∀ env ∈ new, env.message_type = "end" ∧ env.payload.call_id = r.callId) ∧
    (∀ (o : Outcomes) (w : VisitorCallPage), ∃ new,
      sent (startCall o w).log = sent w.log ++ new ∧
      ∀ env ∈ new, env.message_type = "offer" ∧ env.payload.call_id = none) ∧
    (∀ (c : Option IceCandidate) (w : VisitorCallPage), ∃ new,
      sent (onIceCandidate c w).log = sent w.log ++ new ∧
      ∀ env ∈ new, env.message_type = "ice-candidate" ∧ env.payload.call_id = none) := by
  refine ⟨?_, ?_, ?_, ?_, ?_, ?_, ?_⟩
  · intro o w
    obtain ⟨a, b, c, d, e, f, g, h, i, j, k⟩ := o
    unfold Dashboard.acceptCall
    cases hic : w.incomingCall with
    | none => exact ⟨[], by simp, by simp⟩
    | some ic =>
      refine ⟨if a && b then [Dashboard.acceptEnvelope ic] else [], ?_, ?_⟩
      · cases a <;> cases b <;> cases h <;> simp [sent_append, sent]
      · cases a <;> cases b <;> simp [Dashboard.acceptEnvelope]
  · intro w
    unfold Dashboard.rejectCall
    cases hic : w.incomingCall with
    | none => exact ⟨[], by simp, by simp⟩
    | some ic =>
      exact ⟨[Dashboard.rejectEnvelope ic], by simp [sent_append, sent],
        by simp [Dashboard.rejectEnvelope]⟩
  · intro o n w msg
    unfold Dashboard.handleMessage
    split
    · obtain ⟨a, b, c, d, e, f, g, h, i, j, k⟩ := o
      unfold Dashboard.handleOffer
      refine ⟨if f && d && e then [Dashboard.answerEnvelope n] else [], ?_, ?_⟩
      · cases f <;> cases d <;> cases e <;> cases h <;>
          simp [sent_append, sent, Dashboard.drainQueue_eq, List.filterMap_map,
            Function.comp_def]
      · cases f <;> cases d <;> cases e <;> simp [Dashboard.answerEnvelope]
    · split
      · cases msg.payload.candidate with
        | none => exact ⟨[], by simp, by simp⟩
        | some c =>
          simp only [Dashboard.handleCandidate]
          cases n.remoteDescriptionSet <;>
            exact ⟨[], by simp [sent_append, sent], by simp⟩
      · split
        · refine ⟨[], ?_, by simp⟩
          simp [Dashboard.handleEnd, Dashboard.clearOfferPolling_log, Dashboard.sent_endCall]
        · exact ⟨[], by simp, by simp⟩
  · intro n c w
    cases c with
    | none => exact ⟨[], by simp [Dashboard.onIceCandidate], by simp⟩
    | some c =>
      exact ⟨[Dashboard.candidateEnvelope n c],
        by simp [Dashboard.onIceCandidate, sent_append, sent],
        by simp [Dashboard.candidateEnvelope]⟩
  · intro o r w
    have hrel : sent (r.localStream.toList.map Effect.stopTracks ++
        r.peerConnection.toList.map Effect.close) = [] := by
      cases r.localStream <;> cases r.peerConnection <;> simp [sent]
    rw [endCall_log, List.append_assoc, sent_append, hrel, List.append_nil]
    unfold notifyEnd
    cases hid : r.callId with
    | none => exact ⟨[], by simp, by simp⟩
    | some id =>
      by_cases hempty : id = ""
      · exact ⟨[], by simp [hempty], by simp⟩
      · cases o.endCallRequest
        · exact ⟨[], by simp [hempty, sent_append, sent], by simp⟩
        · exact ⟨[endEnvelope w (some id)], by simp [hempty, sent_append, sent],
            by simp [endEnvelope]⟩
  · intro o w
    obtain ⟨a, b, c, d, e, f, g, h, i, j, k⟩ := o
    unfold startCall
    refine ⟨if a && b && c && e then [offerEnvelope w] else [], ?_, ?_⟩
    · cases a <;> cases b <;> cases c <;> cases e <;> cases h <;> simp [sent_append, sent]
    · cases a <;> cases b <;> cases c <;> cases e <;> simp [offerEnvelope]
  · intro c w
    cases c with
    | none => exact ⟨[], by simp [onIceCandidate], by simp⟩
    | some c =>
      exact ⟨[candidateEnvelope w c], by simp [onIceCandidate, sent_append, sent],
        by simp [candidateEnvelope]⟩

end VisitorCallPage

/-! ## Call-history duration -/

theorem digitChar_inj : ∀ a < 10, ∀ b < 10, Nat.digitChar a = Nat.digitChar b → a = b := by
  decide

theorem map_digitChar_inj (l1 l2 : List Nat) (h1 : ∀ x ∈ l1, x < 10) (h2 : ∀ x ∈ l2, x < 10)
    (h : l1.map Nat.digitChar = l2.map Nat.digitChar) : l1 = l2 := by
  induction l1 generalizing l2 with
  | nil =>
    cases l2 with
    | nil => rfl
    | cons b t => simp at h
  | cons a t ih =>
    cases l2 with
    | nil => simp at h
    | cons b u =>
      simp only [List.map_cons, List.cons.injEq] at h
      have hab := digitChar_inj a (h1 a (List.mem_cons_self _ _)) b (h2 b (List.mem_cons_self _ _)) h.1
      have := ih u (fun x hx => h1 x (List.mem_cons_of_mem _ hx))
        (fun x hx => h2 x (List.mem_cons_of_mem _ hx)) h.2
      rw [hab, this]

theorem decimal_data (n : Nat) (hn : n ≠ 0) :
    (decimal n).data = (Nat.digits 10 n).reverse.map Nat.digitChar := by
  simp [decimal, hn]

theorem decimal_injective (a b : Nat) (h : decimal a = decimal b) : a = b := by
  have key : ∀ n : Nat, n ≠ 0 → decimal n ≠ "0" := by
    intro n hn h0
    have hd := congrArg String.data h0
    rw [decimal_data n hn] at hd
    have hlen := congrArg List.length hd
    simp at hlen
    obtain ⟨x, hx⟩ := List.length_eq_one.mp hlen
    have hxlt : x < 10 := Nat.digits_lt_base (by norm_num) (by rw [hx]; simp)
    rw [hx] at hd
    simp at hd
    have hx0 : x = 0 := digitChar_inj x hxlt 0 (by norm_num) (by simpa using hd)
    have hlast := Nat.getLast_digit_ne_zero 10 hn
    simp [hx, hx0] at hlast
  by_cases ha : a = 0
  · by_cases hb : b = 0
    · rw [ha, hb]
    · exfalso
      rw [ha] at h
      exact key b hb (by rw [← h]; simp [decimal])
  · by_cases hb : b = 0
    · exfalso
      rw [hb] at h
      exact key a ha (by rw [h]; simp [decimal])
    · have hd := congrArg String.data h
      rw [decimal_data a ha, decimal_data b hb] at hd
      have := map_digitChar_inj _ _
        (fun x hx => Nat.digits_lt_base (by norm_num) (List.mem_reverse.mp hx))
        (fun x hx => Nat.digits_lt_base (by norm_num) (List.mem_reverse.mp hx)) hd
      exact (Nat.digits_inj_iff).mp (List.reverse_injective this)

theorem padStart_decimal (s : Nat) (hs : s < 100) :
    padStart 2 '0' (decimal s) = String.mk [Nat.digitChar (s / 10), Nat.digitChar (s % 10)] := by
  by_cases h0 : s = 0
  · subst h0; decide
  · by_cases h10 : s < 10
    · have hd : Nat.digits 10 s = [s] := Nat.digits_of_lt 10 s h0 h10
      have h1 : s / 10 = 0 := by omega
      have h2 : s % 10 = s := by omega
      simp [padStart, decimal, h0, hd, h1, h2]
      rfl
    · have hpos : 0 < s := by omega
      have hq0 : s / 10 ≠ 0 := by omega
      have hq : s / 10 < 10 := by omega
      have hd : Nat.digits 10 s = [s % 10, s / 10] := by
        rw [Nat.digits_def' (by norm_num) hpos, Nat.digits_of_lt 10 (s / 10) hq0 hq]
      simp [padStart, decimal, h0, hd]

theorem historyDuration_data (d : Nat) (hd : 0 < d) :
    ∃ text, historyDuration d = some text ∧
      text.data = "Duration: ".data ++ (decimal (d / 60)).data ++ [':'] ++
        [Nat.digitChar (d % 60 / 10), Nat.digitChar (d % 60 % 10)] := by
  refine ⟨"Duration: " ++ decimal (d / 60) ++ ":" ++ padStart 2 '0' (decimal (d % 60)),
    by simp [historyDuration, hd], ?_⟩
  rw [padStart_decimal (d % 60) (by omega)]
  simp [String.data_append]

/-- C28. Call-history duration rendering: for a duration of `d > 0` seconds the element shows
"Duration: " followed by the minutes `d / 60` in decimal, a colon, and the seconds `d % 60` in
decimal padded on the left with '0' to two characters (so exactly the two digits of the
seconds); the seconds are below 60, minutes and seconds give back `d`, and two different
positive durations are rendered differently; for `d = 0` the element is not rendered. -/
theorem history_duration_rendering (d e : Nat) (hd : 0 < d) (he : 0 < e) :
    historyDuration d = some ("Duration: " ++ decimal (d / 60) ++ ":" ++
      padStart 2 '0' (decimal (d % 60))) ∧
    padStart 2 '0' (decimal (d % 60))
      = String.mk [Nat.digitChar (d % 60 / 10), Nat.digitChar (d % 60 % 10)] ∧
    d % 60 < 60 ∧ 60 * (d / 60) + d % 60 = d ∧
    (historyDuration d = historyDuration e → d = e) ∧
    historyDuration 0 = none := by
  refine ⟨by simp [historyDuration, hd], padStart_decimal _ (by omega), by omega, by omega, ?_,
    rfl⟩
  intro h
  obtain ⟨t1, ht1, hdata1⟩ := historyDuration_data d hd
  obtain ⟨t2, ht2, hdata2⟩ := historyDuration_data e he
  rw [ht1, ht2] at h
  have ht : t1 = t2 := Option.some.inj h
  rw [ht, hdata2] at hdata1
  obtain ⟨hfront, hsec⟩ := List.append_inj' hdata1 rfl
  obtain ⟨hmin, _⟩ := List.append_inj' hfront rfl
  have hm : decimal (e / 60) = decimal (d / 60) :=
    String.ext (List.append_cancel_left hmin)
  have hminutes := decimal_injective _ _ hm
  simp only [List.cons.injEq, and_true] at hsec
  have hx := digitChar_inj _ (by omega) _ (by omega) hsec.1
  have hy := digitChar_inj _ (by omega) _ (by omega) hsec.2
  omega

theorem history_duration_rendering_witness :
    0 < 65 ∧ 0 < 3600 ∧
    (historyDuration 65 = some ("Duration: " ++ decimal (65 / 60) ++ ":" ++
      padStart 2 '0' (decimal (65 % 60))) ∧
    padStart 2 '0' (decimal (65 % 60))
      = String.mk [Nat.digitChar (65 % 60 / 10), Nat.digitChar (65 % 60 % 10)] ∧
    65 % 60 < 60 ∧ 60 * (65 / 60) + 65 % 60 = 65 ∧
    (historyDuration 65 = historyDuration 3600 → 65 = 3600) ∧
    historyDuration 0 = none) :=
  ⟨by decide, by decide, history_duration_rendering 65 3600 (by decide) (by decide)⟩

theorem historyDuration_example : historyDuration 65 = some "Duration: 1:05" ∧
    historyDuration 3600 = some "Duration: 60:00" := by
  constructor <;> simp [historyDuration, decimal, padStart] <;> decide

end ScanBell
